import Mathlib

/-
Verification development for the Orchestration Core subsystem:
execution coordination, multi-provider failover, budget guardrails and
rate limiting / queue management, embedded shallowly from the Python
sources. Python dicts are modelled as insertion-ordered association
lists, floats as rationals, and datetime/time values as rational
timestamps.
-/

set_option maxRecDepth 8000

/-- Python dict read d.get(k): first binding of k in an insertion-ordered
association list. -/
def dictGet {α : Type} : List (String × α) → String → Option α
  | [], _ => none
  | kv :: rest, k => if kv.1 = k then some kv.2 else dictGet rest k

/-- Python dict write d[k] = v: replace the binding in place when the key is
present, append it otherwise. -/
def dictSet {α : Type} : List (String × α) → String → α → List (String × α)
  | [], k, v => [(k, v)]
  | kv :: rest, k, v => if kv.1 = k then (k, v) :: rest else kv :: dictSet rest k v

namespace ExecCoord

/-- ConcreteAction from examples_execution_coordination.py. The parameter bag
is modelled as a numeric association list, which is how create_execution_plan
consumes it (parameters.get of a numeric estimate). -/
structure ConcreteAction where
  action_id : String
  action_type : String
  parameters : List (String × Rat)
  dependencies : List String
  worker_id : Option String := none
deriving DecidableEq

/-- ActionResult from examples_execution_coordination.py. -/
structure ActionResult where
  action_id : String
  success : Bool
  result_data : List (String × String)
  error : Option String := none
  execution_time : Rat := 0
deriving DecidableEq

/-- ExecutionPlan from examples_execution_coordination.py. -/
structure ExecutionPlan where
  sequential_actions : List (List ConcreteAction)
  total_actions : Nat
  estimated_time : Rat
deriving DecidableEq

/-- Python set.add on an insertion-ordered set of ids. -/
def setAdd (s : List String) (x : String) : List String :=
  if x ∈ s then s else s ++ [x]

/-- ExecutionCoordinationService._build_dependency_graph: for each action,
each dependency id that names an action of the batch is added to the set
stored under the action's own id (defaultdict(set) semantics: an entry is
created on first add). -/
def build_dependency_graph (actions : List ConcreteAction) :
    List (String × List String) :=
  let action_ids := actions.map (fun a => a.action_id)
  actions.foldl
    (fun graph a =>
      a.dependencies.foldl
        (fun g dep_id =>
          if dep_id ∈ action_ids then
            dictSet g a.action_id (setAdd ((dictGet g a.action_id).getD []) dep_id)
          else g)
        graph)
    []

/-- The in-degree dict initialisation of _topological_sort:
in_degree = dict with a zero for every action id. -/
def init_in_degree (actions : List ConcreteAction) : List (String × Int) :=
  actions.foldl (fun d a => dictSet d a.action_id 0) []

/-- The in-degree computation of _topological_sort: for every action, each
member of its graph entry that is itself a tracked id bumps the action's own
in-degree. -/
def compute_in_degree (actions : List ConcreteAction)
    (dependency_graph : List (String × List String)) : List (String × Int) :=
  actions.foldl
    (fun d a =>
      ((dictGet dependency_graph a.action_id).getD []).foldl
        (fun d2 dep_id =>
          if (dictGet d2 dep_id).isSome then
            dictSet d2 a.action_id (((dictGet d2 a.action_id).getD 0) + 1)
          else d2)
        d)
    (init_in_degree actions)

/-- The per-popped-node update of _topological_sort: walk the popped node's
graph entry, decrement each tracked id found there, and append ids whose
count reaches zero to the queue. -/
def process_node (dependency_graph : List (String × List String))
    (st : List (String × Int) × List String) (action_id : String) :
    List (String × Int) × List String :=
  ((dictGet dependency_graph action_id).getD []).foldl
    (fun st2 dependent_id =>
      match dictGet st2.1 dependent_id with
      | none => st2
      | some deg =>
        let d2 := dictSet st2.1 dependent_id (deg - 1)
        if deg - 1 = 0 then (d2, st2.2 ++ [dependent_id]) else (d2, st2.2))
    st

/-- One iteration of the while loop of _topological_sort: pop every id
currently queued (level_size pops), collecting newly zeroed ids as the next
queue. -/
def process_level (dependency_graph : List (String × List String))
    (queue : List String) (in_degree : List (String × Int)) :
    List (String × Int) × List String :=
  queue.foldl (fun st aid => process_node dependency_graph st aid) (in_degree, [])

/-- The while loop of _topological_sort, fuelled by an iteration bound. Each
iteration consumes the whole current queue as one level. -/
def sort_loop (dependency_graph : List (String × List String))
    (action_map : List (String × ConcreteAction)) :
    Nat → List String → List (String × Int) → List (List ConcreteAction) →
    List (List ConcreteAction)
  | 0, _, _, acc => acc.reverse
  | fuel + 1, queue, in_degree, acc =>
    if queue.isEmpty then acc.reverse
    else
      let stepped := process_level dependency_graph queue in_degree
      let current_level := queue.filterMap (fun aid => dictGet action_map aid)
      let acc2 := if current_level.isEmpty then acc else current_level :: acc
      sort_loop dependency_graph action_map fuel stepped.2 stepped.1 acc2

/-- ExecutionCoordinationService._topological_sort. The fuel bound
actions.length + 1 dominates the number of iterations the Python while loop
can perform, since every iteration pops at least one queued id and an id is
queued at most once. -/
def topological_sort (actions : List ConcreteAction)
    (dependency_graph : List (String × List String)) :
    List (List ConcreteAction) :=
  let action_map := actions.foldl (fun m a => dictSet m a.action_id a) []
  let in_degree := compute_in_degree actions dependency_graph
  let queue := (in_degree.filter (fun kv => kv.2 = 0)).map (fun kv => kv.1)
  sort_loop dependency_graph action_map (actions.length + 1) queue in_degree []

/-- Python max over a list; the empty case is unreachable where it is used
(topological_sort emits only nonempty levels). -/
def py_max (l : List Rat) : Rat :=
  match l with
  | [] => 0
  | x :: rest => rest.foldl max x

/-- ExecutionCoordinationService.create_execution_plan. -/
def create_execution_plan (actions : List ConcreteAction) : ExecutionPlan :=
  let dependency_graph := build_dependency_graph actions
  let execution_groups := topological_sort actions dependency_graph
  let estimated_time :=
    (execution_groups.map
      (fun group =>
        py_max (group.map (fun a => (dictGet a.parameters "estimated_time").getD 10)))).sum
  { sequential_actions := execution_groups
    total_actions := actions.length
    estimated_time := estimated_time }

/-- The execution context dict, consulted only through
context.get("stop_on_failure", False). -/
abbrev Ctx := List (String × Bool)

/-- ExecutionCoordinationService._should_stop_on_failure. -/
def should_stop_on_failure (context : Ctx) : Bool :=
  (dictGet context "stop_on_failure").getD false

/-- ExecutionCoordinationService._execute_action as written: the simplified
body builds a success payload and cannot fail; the measured wall-clock
duration is modelled as zero. -/
def execute_action (action : ConcreteAction) (_context : Ctx) : ActionResult :=
  { action_id := action.action_id
    success := true
    result_data := [("action_id", action.action_id), ("status", "success")]
    error := none
    execution_time := 0 }

/-- ExecutionCoordinationService.coordinate_parallel_execution: asyncio.gather
returns one result per action, in submission order. The executor is passed
explicitly, standing for self._execute_action (whose body in the source is
the always-succeeding placeholder execute_action above). -/
def coordinate_parallel_execution (execFn : ConcreteAction → Ctx → ActionResult)
    (action_group : List ConcreteAction) (context : Ctx) : List ActionResult :=
  action_group.map (fun a => execFn a context)

/-- The level-by-level loop of coordinate_sequential_execution: extend the
accumulated results with the level's results, then break when the level had a
failure and the context requests stop_on_failure. -/
def sequential_loop (execFn : ConcreteAction → Ctx → ActionResult) (context : Ctx) :
    List (List ConcreteAction) → List ActionResult
  | [] => []
  | group :: rest =>
    let group_results := coordinate_parallel_execution execFn group context
    let failures := group_results.filter (fun r => !r.success)
    if !failures.isEmpty && should_stop_on_failure context then group_results
    else group_results ++ sequential_loop execFn context rest

/-- ExecutionCoordinationService.coordinate_sequential_execution. -/
def coordinate_sequential_execution (execFn : ConcreteAction → Ctx → ActionResult)
    (action_groups : List (List ConcreteAction)) (context : Ctx) :
    List ActionResult :=
  sequential_loop execFn context action_groups

/-- Concrete batch: action A with no dependencies. -/
def actA : ConcreteAction :=
  { action_id := "A", action_type := "task", parameters := [], dependencies := [] }

/-- Concrete batch: action B depending on A. -/
def actB : ConcreteAction :=
  { action_id := "B", action_type := "task", parameters := [], dependencies := ["A"] }

/-- Two actions forming a dependency cycle. -/
def cycA : ConcreteAction :=
  { action_id := "A", action_type := "task", parameters := [], dependencies := ["B"] }

/-- Second half of the two-cycle. -/
def cycB : ConcreteAction :=
  { action_id := "B", action_type := "task", parameters := [], dependencies := ["A"] }

/-- Three actions forming a dependency cycle. -/
def cyc3 : List ConcreteAction :=
  [ { action_id := "X", action_type := "task", parameters := [], dependencies := ["Z"] },
    { action_id := "Y", action_type := "task", parameters := [], dependencies := ["X"] },
    { action_id := "Z", action_type := "task", parameters := [], dependencies := ["Y"] } ]

/-- An executor that fails action A and succeeds on everything else, standing
for a production _execute_action whose underlying work can fail. -/
def failAExec (a : ConcreteAction) (c : Ctx) : ActionResult :=
  if a.action_id = "A" then
    { action_id := a.action_id, success := false, result_data := [],
      error := some "boom", execution_time := 0 }
  else execute_action a c

/-- A context with stop_on_failure set. -/
def ctxStop : Ctx := [("stop_on_failure", true)]

end ExecCoord

namespace Failover

/-- Provider health states from examples_multi_provider_failover.py. -/
inductive ProviderHealthStatus
  | HEALTHY
  | DEGRADED
  | UNHEALTHY
deriving DecidableEq

/-- ProviderHealthMetrics; rolling rates and latencies are rationals,
timestamps are rational instants. -/
structure ProviderHealthMetrics where
  provider_id : String
  success_rate : Rat := 1
  avg_latency : Rat := 0
  error_rate : Rat := 0
  last_check : Option Rat := none
  consecutive_failures : Int := 0
  total_requests : Int := 0
  total_errors : Int := 0
deriving DecidableEq

/-- ProviderConfig: static provider configuration. -/
structure ProviderConfig where
  provider_id : String
  provider_name : String
  priority : Int
  api_endpoint : String
  api_key : String
  health_check_interval : Int := 30
  latency_threshold : Rat := 5
  error_rate_threshold : Rat := 1/10
  max_consecutive_failures : Int := 3
deriving DecidableEq

/-- ProviderHealthMonitor state: the four per-provider dicts built in
ProviderHealthMonitor.__init__. -/
structure ProviderHealthMonitor where
  providers : List (String × ProviderConfig)
  health_metrics : List (String × ProviderHealthMetrics)
  health_status : List (String × ProviderHealthStatus)
  request_history : List (String × List Rat)
deriving DecidableEq

/-- ProviderHealthMonitor.__init__. -/
def monitor_init (providers : List ProviderConfig) : ProviderHealthMonitor :=
  { providers := providers.foldl (fun m p => dictSet m p.provider_id p) []
    health_metrics :=
      providers.foldl (fun m p => dictSet m p.provider_id { provider_id := p.provider_id }) []
    health_status := providers.foldl (fun m p => dictSet m p.provider_id .HEALTHY) []
    request_history := providers.foldl (fun m p => dictSet m p.provider_id []) [] }

/-- ProviderHealthMonitor._calculate_health_status. -/
def calculate_health_status (config : ProviderConfig) (metrics : ProviderHealthMetrics) :
    ProviderHealthStatus :=
  if metrics.consecutive_failures ≥ config.max_consecutive_failures then .UNHEALTHY
  else if metrics.error_rate > config.error_rate_threshold then .UNHEALTHY
  else if metrics.avg_latency > config.latency_threshold then .DEGRADED
  else if metrics.success_rate < 9/10 then .DEGRADED
  else .HEALTHY

/-- deque(maxlen=100).append: append on the right, dropping from the left
beyond 100 entries. -/
def deque_append (history : List Rat) (x : Rat) : List Rat :=
  let h := history ++ [x]
  if h.length > 100 then h.drop (h.length - 100) else h

/-- ProviderHealthMonitor.record_request_result: bump counters, refresh the
rolling latency window, recompute rates, and recompute the provider's health
status. A provider id without metrics is ignored, as in the source. -/
def record_request_result (m : ProviderHealthMonitor) (provider_id : String)
    (success : Bool) (latency : Rat) : ProviderHealthMonitor :=
  match dictGet m.health_metrics provider_id with
  | none => m
  | some metrics0 =>
    let metrics1 := { metrics0 with total_requests := metrics0.total_requests + 1 }
    let metrics2 :=
      if !success then
        { metrics1 with
            total_errors := metrics1.total_errors + 1
            consecutive_failures := metrics1.consecutive_failures + 1 }
      else
        { metrics1 with consecutive_failures := 0 }
    let history := deque_append ((dictGet m.request_history provider_id).getD []) latency
    let metrics3 :=
      if history.length > 0 then
        { metrics2 with avg_latency := history.sum / (history.length : Rat) }
      else metrics2
    let metrics4 :=
      { metrics3 with
          success_rate := 1 - (metrics3.total_errors : Rat) / (metrics3.total_requests : Rat)
          error_rate := (metrics3.total_errors : Rat) / (metrics3.total_requests : Rat) }
    let m1 :=
      { m with
          health_metrics := dictSet m.health_metrics provider_id metrics4
          request_history := dictSet m.request_history provider_id history }
    match dictGet m.providers provider_id with
    | none => m1
    | some config =>
      { m1 with
          health_status :=
            dictSet m1.health_status provider_id (calculate_health_status config metrics4) }

/-- ProviderHealthMonitor.get_health_status: default UNHEALTHY for unknown
providers. -/
def get_health_status (m : ProviderHealthMonitor) (provider_id : String) :
    ProviderHealthStatus :=
  (dictGet m.health_status provider_id).getD .UNHEALTHY

/-- LoadBalancingStrategy enum. -/
inductive LoadBalancingStrategy
  | ROUND_ROBIN
  | WEIGHTED_ROUND_ROBIN
  | LEAST_CONNECTIONS
  | HEALTH_BASED
deriving DecidableEq

/-- ProviderRequest result record; the Exception payload is modelled as its
message. -/
structure ProviderRequest where
  provider_id : String
  success : Bool
  response : Option String := none
  error : Option String := none
  latency : Rat := 0
  cost : Rat := 0
deriving DecidableEq

/-- MultiProviderRouter state. -/
structure MultiProviderRouter where
  providers : List ProviderConfig
  health_monitor : ProviderHealthMonitor
  load_balancing : LoadBalancingStrategy
  active_connections : List (String × Int)
  round_robin_index : List (String × Int)
  cost_tracking : List (String × Rat)
deriving DecidableEq

/-- MultiProviderRouter.__init__: providers are sorted by ascending priority;
Python's sorted is stable, which insertion sort on the priority preorder
reproduces exactly. -/
def router_init (providers : List ProviderConfig) (health_monitor : ProviderHealthMonitor)
    (load_balancing : LoadBalancingStrategy) : MultiProviderRouter :=
  { providers := providers.insertionSort (fun a b => a.priority ≤ b.priority)
    health_monitor := health_monitor
    load_balancing := load_balancing
    active_connections := providers.foldl (fun m p => dictSet m p.provider_id 0) []
    round_robin_index := providers.foldl (fun m p => dictSet m p.provider_id 0) []
    cost_tracking := providers.foldl (fun m p => dictSet m p.provider_id 0) [] }

/-- MultiProviderRouter._round_robin_select, including its mutation of
round_robin_index (keyed on the first listed provider). -/
def round_robin_select (r : MultiProviderRouter) (providers : List ProviderConfig) :
    Option ProviderConfig × MultiProviderRouter :=
  match providers with
  | [] => (none, r)
  | p0 :: _ =>
    let index := (dictGet r.round_robin_index p0.provider_id).getD 0
    let selected := providers.get? (index % (providers.length : Int)).toNat
    let r2 :=
      { r with
          round_robin_index :=
            dictSet r.round_robin_index p0.provider_id ((index + 1) % (providers.length : Int)) }
    (selected, r2)

/-- Python min with a key function: first element attaining the least key. -/
def py_min_by (f : ProviderConfig → Int) : List ProviderConfig → Option ProviderConfig
  | [] => none
  | p :: rest => some (rest.foldl (fun best q => if f q < f best then q else best) p)

/-- MultiProviderRouter._least_connections_select. -/
def least_connections_select (r : MultiProviderRouter) (providers : List ProviderConfig) :
    Option ProviderConfig :=
  py_min_by (fun p => (dictGet r.active_connections p.provider_id).getD 0) providers

/-- MultiProviderRouter._select_provider: filter the priority-ordered pool to
providers whose current status is HEALTHY, then apply the configured
strategy. -/
def select_provider (r : MultiProviderRouter) :
    Option ProviderConfig × MultiProviderRouter :=
  let healthy_providers :=
    r.providers.filter
      (fun p => get_health_status r.health_monitor p.provider_id == ProviderHealthStatus.HEALTHY)
  if healthy_providers.isEmpty then (none, r)
  else
    match r.load_balancing with
    | .ROUND_ROBIN => round_robin_select r healthy_providers
    | .LEAST_CONNECTIONS => (least_connections_select r healthy_providers, r)
    | .HEALTH_BASED => (healthy_providers.head?, r)
    | _ => (healthy_providers.head?, r)

/-- MultiProviderRouter._select_next_provider: first provider strictly after
the current one, in priority order, whose status is not UNHEALTHY. -/
def select_next_provider (r : MultiProviderRouter) (current_provider_id : String) :
    Option ProviderConfig :=
  match r.providers.findIdx? (fun p => p.provider_id == current_provider_id) with
  | none => none
  | some current_index =>
    (r.providers.drop (current_index + 1)).find?
      (fun p => !(get_health_status r.health_monitor p.provider_id == ProviderHealthStatus.UNHEALTHY))

/-- MultiProviderRouter._is_transient_error: any present error is classified
transient, a missing error permanent, exactly as the simplified source. -/
def is_transient_error (error : Option String) : Bool :=
  match error with
  | none => false
  | some _ => true

/-- Request payload dict, opaque to the router. -/
abbrev RequestData := List (String × String)

/-- The attempt loop of MultiProviderRouter.route_request, one recursion step
per remaining range(max_retries) iteration. After the first attempt the next
provider in the failover chain is selected; the executor stands for
self._execute_request, whose body in the source is a simulated call. On
completion the outcome is always reported to the health monitor, cost is
tracked on success, a transient-classified error re-enters the loop, and a
permanent-classified one leaves it with the terminal failure record. -/
def route_attempts (execFn : ProviderConfig → RequestData → ProviderRequest)
    (request_data : RequestData) :
    Nat → Bool → ProviderConfig → MultiProviderRouter →
    ProviderRequest × MultiProviderRouter
  | 0, _, provider, r =>
    ({ provider_id := provider.provider_id, success := false,
       error := some "All providers failed" }, r)
  | fuel + 1, is_first, provider0, r =>
    let next : Option ProviderConfig :=
      if is_first then some provider0 else select_next_provider r provider0.provider_id
    match next with
    | none =>
      ({ provider_id := "", success := false, error := some "All providers failed" }, r)
    | some provider =>
      let result := execFn provider request_data
      let r1 :=
        { r with
            health_monitor :=
              record_request_result r.health_monitor provider.provider_id
                result.success result.latency }
      let r2 :=
        if result.success then
          { r1 with
              cost_tracking :=
                dictSet r1.cost_tracking provider.provider_id
                  (((dictGet r1.cost_tracking provider.provider_id).getD 0) + result.cost) }
        else r1
      if result.success then (result, r2)
      else if is_transient_error result.error then
        route_attempts execFn request_data fuel false provider r2
      else
        ({ provider_id := provider.provider_id, success := false,
           error := some "All providers failed" }, r2)

/-- MultiProviderRouter.route_request. -/
def route_request (r : MultiProviderRouter)
    (execFn : ProviderConfig → RequestData → ProviderRequest)
    (request_data : RequestData) (max_retries : Nat) :
    ProviderRequest × MultiProviderRouter :=
  match select_provider r with
  | (none, r1) =>
    ({ provider_id := "", success := false,
       error := some "No healthy providers available" }, r1)
  | (some provider, r1) => route_attempts execFn request_data max_retries true provider r1

/-- Concrete provider with priority 0. -/
def prov1 : ProviderConfig :=
  { provider_id := "p1", provider_name := "Provider1", priority := 0,
    api_endpoint := "https://p1.example", api_key := "k1" }

/-- Concrete provider with priority 1. -/
def prov2 : ProviderConfig :=
  { provider_id := "p2", provider_name := "Provider2", priority := 1,
    api_endpoint := "https://p2.example", api_key := "k2" }

/-- Router over the two concrete providers, health-based selection. -/
def router2 : MultiProviderRouter :=
  router_init [prov1, prov2] (monitor_init [prov1, prov2]) .HEALTH_BASED

/-- An upstream behaviour in which provider p1 fails with no error payload
(classified permanent by _is_transient_error) and p2 would succeed. -/
def permFailP1 (p : ProviderConfig) (_ : RequestData) : ProviderRequest :=
  if p.provider_id = "p1" then
    { provider_id := "p1", success := false, error := none }
  else
    { provider_id := p.provider_id, success := true, response := some "ok" }

/-- An upstream behaviour in which provider p1 fails with a timeout error
(classified transient) and p2 succeeds. -/
def transFailP1 (p : ProviderConfig) (_ : RequestData) : ProviderRequest :=
  if p.provider_id = "p1" then
    { provider_id := "p1", success := false, error := some "timeout" }
  else
    { provider_id := p.provider_id, success := true, response := some "ok" }

/-- A monitor over one provider whose status has been set DEGRADED. -/
def monitorDegraded : ProviderHealthMonitor :=
  { monitor_init [prov1] with health_status := [("p1", .DEGRADED)] }

/-- Router whose only provider is DEGRADED. -/
def routerDegraded : MultiProviderRouter :=
  router_init [prov1] monitorDegraded .HEALTH_BASED

/-- A provider that tolerates a single consecutive failure. -/
def provW : ProviderConfig :=
  { provider_id := "pw", provider_name := "ProviderW", priority := 0,
    api_endpoint := "https://pw.example", api_key := "kw",
    max_consecutive_failures := 1 }

/-- Fresh monitor over provW. -/
def monitorW : ProviderHealthMonitor := monitor_init [provW]

/-- The priority preorder used by sorted(providers, key=priority) is total. -/
instance : IsTotal ProviderConfig (fun a b => a.priority ≤ b.priority) :=
  ⟨fun a b => le_total a.priority b.priority⟩

/-- The priority preorder used by sorted(providers, key=priority) is
transitive. -/
instance : IsTrans ProviderConfig (fun a b => a.priority ≤ b.priority) :=
  ⟨fun _ _ _ hab hbc => le_trans hab hbc⟩

end Failover

namespace Budget

/-- The BudgetState TypedDict (total=False), restricted to the fields that
check_budget_status and check_guardrail actually read; every field is
optional, mirroring possible absence of a TypedDict key. The cumulative
token counters and per-model/per-node breakdowns are carried by the full
dict but never consulted by the guardrail path. -/
structure BudgetState where
  total_cost_usd : Option Rat := none
  budget_limit_usd : Option Rat := none
  budget_warning_threshold : Option Rat := none
  budget_exceeded : Option Bool := none
deriving DecidableEq

/-- CostTracker configuration consulted by check_budget_status
(examples_budget_state.py). -/
structure CostTracker where
  budget_limit_usd : Rat := 10
  warning_threshold : Rat := 8/10
deriving DecidableEq

/-- The status dict returned by CostTracker.check_budget_status. -/
structure BudgetStatus where
  budget_used : Rat
  budget_remaining : Rat
  budget_usage_percent : Rat
  is_warning : Bool
  is_exceeded : Bool
deriving DecidableEq

/-- CostTracker.check_budget_status. -/
def check_budget_status (ct : CostTracker) (state : BudgetState) : BudgetStatus :=
  match state.total_cost_usd with
  | none =>
    { budget_used := 0
      budget_remaining := state.budget_limit_usd.getD 0
      budget_usage_percent := 0
      is_warning := false
      is_exceeded := false }
  | some budget_used =>
    let budget_limit := state.budget_limit_usd.getD ct.budget_limit_usd
    let budget_remaining := max 0 (budget_limit - budget_used)
    let budget_usage_percent := if budget_limit > 0 then budget_used / budget_limit else 0
    let warning_threshold := state.budget_warning_threshold.getD ct.warning_threshold
    { budget_used := budget_used
      budget_remaining := budget_remaining
      budget_usage_percent := budget_usage_percent
      is_warning := decide (budget_usage_percent ≥ warning_threshold)
      is_exceeded := state.budget_exceeded.getD false || decide (budget_usage_percent ≥ 1) }

/-- GuardrailAction enum (examples_guardrails.py). -/
inductive GuardrailAction
  | CONTINUE
  | WARN
  | DEGRADE
  | HALT
deriving DecidableEq

/-- GuardrailConfig with its source defaults. -/
structure GuardrailConfig where
  warning_threshold : Rat := 8/10
  soft_limit_threshold : Rat := 9/10
  hard_limit_threshold : Rat := 1
  enable_graceful_degradation : Bool := true
  fallback_model : Option String := none
  reduce_context_on_degradation : Bool := true
  context_reduction_factor : Rat := 1/2
deriving DecidableEq

/-- BudgetGuardrail.check_guardrail: exceeded wins, then the hard, soft and
warning thresholds in that order. -/
def check_guardrail (ct : CostTracker) (config : GuardrailConfig) (state : BudgetState) :
    GuardrailAction :=
  let status := check_budget_status ct state
  if status.is_exceeded then .HALT
  else if status.budget_usage_percent ≥ config.hard_limit_threshold then .HALT
  else if status.budget_usage_percent ≥ config.soft_limit_threshold then
    (if config.enable_graceful_degradation then .DEGRADE else .HALT)
  else if status.is_warning then .WARN
  else .CONTINUE

/-- Default CostTracker. -/
def trackerD : CostTracker := {}

/-- Default GuardrailConfig. -/
def configD : GuardrailConfig := {}

/-- BudgetState at 8.50 of a 10.00 limit. -/
def state85 : BudgetState :=
  { total_cost_usd := some (85/10), budget_limit_usd := some 10 }

/-- BudgetState at 9.10 of a 10.00 limit. -/
def state91 : BudgetState :=
  { total_cost_usd := some (91/10), budget_limit_usd := some 10 }

/-- BudgetState at 10.00 of a 10.00 limit. -/
def state100 : BudgetState :=
  { total_cost_usd := some 10, budget_limit_usd := some 10 }

end Budget

namespace RateLimit

/-- Token-bucket algorithm selector (examples_multi_agent_rate_limiting.py). -/
inductive RateLimitAlgorithm
  | TOKEN_BUCKET
  | SLIDING_WINDOW
  | FIXED_WINDOW
deriving DecidableEq

/-- RateLimitConfig. -/
structure RateLimitConfig where
  requests_per_window : Int
  window_seconds : Int
  burst_allowance : Int := 0
  algorithm : RateLimitAlgorithm := .TOKEN_BUCKET
deriving DecidableEq

/-- Python int() truncation toward zero of a rational. -/
def py_int (q : Rat) : Int :=
  if q < 0 then -(⌊-q⌋) else ⌊q⌋

/-- The local mutable state of PerAgentRateLimiter: an integer token count
and the last refill instant. -/
structure LocalBucketState where
  tokens : Int
  last_refill : Rat
deriving DecidableEq

/-- The refill phase of PerAgentRateLimiter._can_proceed_local: a full reset
once a whole window has elapsed, otherwise a truncated proportional top-up
capped at capacity; the refill instant advances either way. -/
def local_refill (config : RateLimitConfig) (b : LocalBucketState) (now : Rat) :
    LocalBucketState :=
  let elapsed := now - b.last_refill
  if elapsed ≥ (config.window_seconds : Rat) then
    { tokens := config.requests_per_window, last_refill := now }
  else
    let refill_rate : Rat := (config.requests_per_window : Rat) / (config.window_seconds : Rat)
    let tokens_to_add := py_int (elapsed * refill_rate)
    { tokens := min config.requests_per_window (b.tokens + tokens_to_add)
      last_refill := now }

/-- PerAgentRateLimiter._can_proceed_local: refill, then consume one token
when at least one is available. -/
def can_proceed_local (config : RateLimitConfig) (b : LocalBucketState) (now : Rat) :
    Bool × LocalBucketState :=
  let b1 := local_refill config b now
  if b1.tokens ≥ 1 then (true, { b1 with tokens := b1.tokens - 1 })
  else (false, b1)

/-- The global bucket state held in Redis by GlobalRateLimiter: a fractional
token count and the last refill instant. -/
structure GlobalBucketState where
  tokens : Rat
  last_refill : Rat
deriving DecidableEq

/-- GlobalRateLimiter.can_proceed: proportional (untruncated) refill capped
at capacity, then consume one token when available; both branches persist
the refreshed state. -/
def global_can_proceed (config : RateLimitConfig) (b : GlobalBucketState) (now : Rat) :
    Bool × GlobalBucketState :=
  let elapsed := now - b.last_refill
  let refill_rate : Rat := (config.requests_per_window : Rat) / (config.window_seconds : Rat)
  let tokens := min (config.requests_per_window : Rat) (b.tokens + elapsed * refill_rate)
  if tokens ≥ 1 then (true, { tokens := tokens - 1, last_refill := now })
  else (false, { tokens := tokens, last_refill := now })

/-- A sequence of admission checks against the per-agent bucket, returning
the number of granted admissions and the final state. -/
def run_local (config : RateLimitConfig) :
    LocalBucketState → List Rat → Nat × LocalBucketState
  | b, [] => (0, b)
  | b, t :: ts =>
    let step := can_proceed_local config b t
    let rest := run_local config step.2 ts
    ((if step.1 then 1 else 0) + rest.1, rest.2)

/-- A sequence of admission checks against the global bucket. -/
def run_global (config : RateLimitConfig) :
    GlobalBucketState → List Rat → Nat × GlobalBucketState
  | b, [] => (0, b)
  | b, t :: ts =>
    let step := global_can_proceed config b t
    let rest := run_global config step.2 ts
    ((if step.1 then 1 else 0) + rest.1, rest.2)

/-- CoordinatedRateLimiter state: the per-agent bucket and the shared global
bucket. -/
structure CoordinatedState where
  per_agent : LocalBucketState
  global_bucket : GlobalBucketState
deriving DecidableEq

/-- CoordinatedRateLimiter.can_proceed: the per-agent check runs first and
consumes its token; only when it admits is the global check consulted, and a
global denial returns False with both updated bucket states kept. The
per-agent limiter inside CoordinatedRateLimiter performs the same
refill-then-consume token-bucket check as _can_proceed_local. -/
def coordinated_can_proceed (per_agent_config global_config : RateLimitConfig)
    (s : CoordinatedState) (now : Rat) : Bool × CoordinatedState :=
  let step1 := can_proceed_local per_agent_config s.per_agent now
  if !step1.1 then (false, { s with per_agent := step1.2 })
  else
    let step2 := global_can_proceed global_config s.global_bucket now
    if !step2.1 then (false, { per_agent := step1.2, global_bucket := step2.2 })
    else (true, { per_agent := step1.2, global_bucket := step2.2 })

/-- A 2-per-second per-agent configuration. -/
def cfgLocal : RateLimitConfig := { requests_per_window := 2, window_seconds := 1 }

/-- A full local bucket at instant 0. -/
def bLocal0 : LocalBucketState := { tokens := 2, last_refill := 0 }

/-- A 3-per-second global configuration. -/
def cfgGlobal : RateLimitConfig := { requests_per_window := 3, window_seconds := 1 }

/-- A full global bucket at instant 0. -/
def bGlobal0 : GlobalBucketState := { tokens := 3, last_refill := 0 }

/-- A coordinated state whose per-agent bucket is full and whose global
bucket is empty, both at instant 0. -/
def sCoord0 : CoordinatedState :=
  { per_agent := { tokens := 5, last_refill := 0 }
    global_bucket := { tokens := 0, last_refill := 0 } }

/-- Per-agent configuration for the coordinated example. -/
def cfgCoordLocal : RateLimitConfig := { requests_per_window := 5, window_seconds := 1 }

end RateLimit

namespace Queue

/-- QueueType enum (examples_queue_management.py). -/
inductive QueueType
  | FIFO
  | PRIORITY
  | WEIGHTED
deriving DecidableEq

/-- RequestPriority enum. -/
inductive RequestPriority
  | HIGH
  | MEDIUM
  | LOW
deriving DecidableEq

/-- The numeric value of a RequestPriority. -/
def RequestPriority.value : RequestPriority → Int
  | .HIGH => 3
  | .MEDIUM => 2
  | .LOW => 1

/-- Request payload dict, opaque to the queue. -/
abbrev CallbackData := List (String × String)

/-- QueuedRequest: the callback is a function of the request data that either
returns a result or raises (modelled as none). retry_count defaults to 0 and
max_retries to 3, as in the dataclass. -/
structure QueuedRequest where
  request_id : String
  agent_id : String
  request_data : CallbackData
  priority : RequestPriority
  callback : CallbackData → Option CallbackData
  created_at : Rat
  retry_count : Int := 0
  max_retries : Int := 3

/-- AgentRequestQueue state. -/
structure AgentRequestQueue where
  queue_type : QueueType
  max_size : Int := 1000
  queue : List QueuedRequest := []
  processing : Bool := false
  processed_count : Int := 0
  failed_count : Int := 0

/-- The PRIORITY insertion of AgentRequestQueue.enqueue: place the new
request before the first queued request of strictly lower priority value,
appending when no such request exists. -/
def insert_by_priority (qr : QueuedRequest) : List QueuedRequest → List QueuedRequest
  | [] => [qr]
  | req :: rest =>
    if qr.priority.value > req.priority.value then qr :: req :: rest
    else req :: insert_by_priority qr rest

/-- AgentRequestQueue.enqueue: reject when full, otherwise build a fresh
QueuedRequest (retry_count and max_retries take their dataclass defaults) and
insert it according to the queue type. The now argument stands for
datetime.now(), which is stored but never consulted by the queue logic. -/
def enqueue (q : AgentRequestQueue) (request_id agent_id : String)
    (request_data : CallbackData) (callback : CallbackData → Option CallbackData)
    (priority : RequestPriority) (now : Rat) : Bool × AgentRequestQueue :=
  if (q.queue.length : Int) ≥ q.max_size then (false, q)
  else
    let queued_request : QueuedRequest :=
      { request_id := request_id, agent_id := agent_id, request_data := request_data,
        priority := priority, callback := callback, created_at := now }
    let new_queue :=
      match q.queue_type with
      | .FIFO => q.queue ++ [queued_request]
      | .PRIORITY => insert_by_priority queued_request q.queue
      | .WEIGHTED =>
        (q.queue ++ [queued_request]).insertionSort
          (fun a b => a.priority.value ≥ b.priority.value)
    (true, { q with queue := new_queue })

/-- AgentRequestQueue.dequeue: pop the head. -/
def dequeue (q : AgentRequestQueue) : Option QueuedRequest × AgentRequestQueue :=
  match q.queue with
  | [] => (none, q)
  | r :: rest => (some r, { q with queue := rest })

/-- The while loop of AgentRequestQueue.process_queue, fuelled by an
iteration budget. The rate limiter is an arbitrary admission stream indexed
by loop iteration; a denied admission waits (sleep is invisible to the
queue state) and retries. A failed callback bumps failed_count and, while
the dequeued request's retry_count is below its max_retries, re-enqueues
through self.enqueue — which constructs a fresh QueuedRequest whose
retry_count is the default 0; the increment performed on the dequeued
object is discarded with it. -/
def process_queue_loop (rate_limiter : Nat → Bool) :
    Nat → Nat → AgentRequestQueue → AgentRequestQueue
  | 0, _, q => q
  | fuel + 1, i, q =>
    if q.queue.isEmpty || !q.processing then q
    else if !(rate_limiter i) then process_queue_loop rate_limiter fuel (i + 1) q
    else
      match dequeue q with
      | (none, q1) => q1
      | (some request, q1) =>
        match request.callback request.request_data with
        | some _ =>
          process_queue_loop rate_limiter fuel (i + 1)
            { q1 with processed_count := q1.processed_count + 1 }
        | none =>
          let q2 := { q1 with failed_count := q1.failed_count + 1 }
          let q3 :=
            if request.retry_count < request.max_retries then
              (enqueue q2 request.request_id request.agent_id request.request_data
                request.callback request.priority 0).2
            else q2
          process_queue_loop rate_limiter fuel (i + 1) q3

/-- AgentRequestQueue.process_queue. -/
def process_queue (rate_limiter : Nat → Bool) (fuel : Nat) (q : AgentRequestQueue) :
    AgentRequestQueue :=
  let q1 := { q with processing := true }
  let q2 := process_queue_loop rate_limiter fuel 0 q1
  { q2 with processing := false }

/-- A request whose callback always raises. -/
def failingRequest : QueuedRequest :=
  { request_id := "r1", agent_id := "a1", request_data := [],
    priority := .MEDIUM, callback := fun _ => none, created_at := 0 }

/-- A queue holding only the persistently failing request. -/
def failingQueue : AgentRequestQueue :=
  { queue_type := .PRIORITY, queue := [failingRequest] }

end Queue

section DictLemmas

/-- Reading back the key just written. -/
theorem dictGet_dictSet_self {α : Type} (l : List (String × α)) (k : String) (v : α) :
    dictGet (dictSet l k v) k = some v := by
  induction l with
  | nil => simp [dictGet, dictSet]
  | cons kv rest ih =>
    by_cases h : kv.1 = k
    · simp [dictGet, dictSet, h]
    · simp [dictGet, dictSet, h, ih]

/-- Writing one key leaves every other key unchanged. -/
theorem dictGet_dictSet_ne {α : Type} (l : List (String × α)) (k k2 : String) (v : α)
    (h : k2 ≠ k) : dictGet (dictSet l k v) k2 = dictGet l k2 := by
  have hk2k : ¬(k = k2) := fun hkk => h hkk.symm
  induction l with
  | nil =>
    simp only [dictSet, dictGet]
    rw [if_neg hk2k]
  | cons kv rest ih =>
    simp only [dictSet]
    by_cases hk : kv.1 = k
    · rw [if_pos hk]
      simp only [dictGet]
      rw [if_neg hk2k, if_neg (hk ▸ hk2k)]
    · rw [if_neg hk]
      simp only [dictGet]
      by_cases hkk2 : kv.1 = k2
      · rw [if_pos hkk2, if_pos hkk2]
      · rw [if_neg hkk2, if_neg hkk2]
        exact ih

/-- Key presence after a write: the written key or a previously present
key. -/
theorem dictGet_dictSet_isSome {α : Type} (l : List (String × α)) (k k2 : String) (v : α) :
    (dictGet (dictSet l k v) k2).isSome ↔ (k2 = k ∨ (dictGet l k2).isSome) := by
  by_cases h : k2 = k
  · subst h
    simp [dictGet_dictSet_self]
  · simp [dictGet_dictSet_ne l k k2 v h, h]

end DictLemmas

/-- C1: the claim "for every acyclic input action set, create_execution_plan
produces levels in which each input action appears exactly once with the
union of levels equal to the input set" fails on the code: for the acyclic
batch A, B-after-A the computed plan contains the single level A while B —
whose only dependency is A — is silently dropped, even though total_actions
still reports 2. The decrement loop of _topological_sort walks the popped
action's dependency set where the dependents are required, so no dependent
action ever reaches in-degree zero. -/
theorem c1_topological_sort_drops_dependent_action :
    (ExecCoord.create_execution_plan [ExecCoord.actA, ExecCoord.actB]).sequential_actions
        = [[ExecCoord.actA]]
    ∧ (ExecCoord.create_execution_plan [ExecCoord.actA, ExecCoord.actB]).total_actions = 2
    ∧ ExecCoord.actB ∉
        (ExecCoord.create_execution_plan [ExecCoord.actA, ExecCoord.actB]).sequential_actions.flatten := by
  refine ⟨rfl, rfl, ?_⟩
  decide

/-- C2 counterexample: on the two-action dependency cycle A-B,
create_execution_plan does not fail with a CyclicDependency error — no error
path exists — but returns an ordinary ExecutionPlan whose level list is
empty, silently dropping both actions. -/
theorem c2_cycle_returns_plan_without_error :
    ExecCoord.create_execution_plan [ExecCoord.cycA, ExecCoord.cycB]
      = { sequential_actions := [], total_actions := 2, estimated_time := 0 } := by
  rfl

/-- C3 counterexample: with stop_on_failure set and the level structure
[[A], [B]], a failure of A makes coordinate_sequential_execution return a
result list containing only A's result: B receives no ActionResult at all,
rather than one marked SkippedDueToUpstreamFailure (no such marker exists in
the code). -/
theorem c3_skipped_level_results_are_omitted :
    (ExecCoord.coordinate_sequential_execution ExecCoord.failAExec
        [[ExecCoord.actA], [ExecCoord.actB]] ExecCoord.ctxStop).map
      (fun r => r.action_id) = ["A"] := by
  rfl

/-- C4: the claim "transient errors retry against the same provider, while
permanent errors trigger failover to the next candidate" is inverted in the
code, contradicting the comments inside route_request. With two healthy
providers p1 (priority 0) and p2 (priority 1): when p1 fails with an error
classified permanent, route_request returns the terminal failure without
ever attempting p2 (its request counter stays 0); when p1 fails with an
error classified transient, the retry is issued to p2, not to p1 again (p1's
request counter stays 1 and the success is attributed to p2). -/
theorem c4_retry_classification_is_inverted :
    ((Failover.route_request Failover.router2 Failover.permFailP1 [] 3).1.success = false
     ∧ (Failover.route_request Failover.router2 Failover.permFailP1 [] 3).1.error
         = some "All providers failed"
     ∧ (dictGet (Failover.route_request Failover.router2 Failover.permFailP1 [] 3).2.health_monitor.health_metrics
          "p2").map (fun m => m.total_requests) = some 0)
    ∧ ((Failover.route_request Failover.router2 Failover.transFailP1 [] 3).1.provider_id = "p2"
     ∧ (Failover.route_request Failover.router2 Failover.transFailP1 [] 3).1.success = true
     ∧ (dictGet (Failover.route_request Failover.router2 Failover.transFailP1 [] 3).2.health_monitor.health_metrics
          "p1").map (fun m => m.total_requests) = some 1) := by
  exact ⟨⟨rfl, rfl, rfl⟩, ⟨rfl, rfl, rfl⟩⟩

/-- C5: the claim "a persistently failing request is re-enqueued at most
max_retries times and then dropped, so it is processed at most 1 +
max_retries times" fails on the code: re-enqueueing goes through enqueue,
which builds a fresh QueuedRequest whose retry_count is the default 0, so
the retry budget never decreases. After 10 iterations over a queue holding
one always-raising request with max_retries = 3, the callback has failed 10
times (> 1 + 3) and the request is still queued with retry_count 0. -/
theorem c5_failed_request_is_retried_without_bound :
    (Queue.process_queue (fun _ => true) 10 Queue.failingQueue).failed_count = 10
    ∧ (Queue.process_queue (fun _ => true) 10 Queue.failingQueue).processed_count = 0
    ∧ (Queue.process_queue (fun _ => true) 10 Queue.failingQueue).queue.length = 1
    ∧ ((Queue.process_queue (fun _ => true) 10 Queue.failingQueue).queue.head?.map
        (fun r => r.retry_count)) = some 0
    ∧ (10 : Int) > 1 + 3 := by
  exact ⟨rfl, rfl, rfl, rfl, by decide⟩

/-- C6 counterexample: a provider whose health status is DEGRADED — hence
not UNHEALTHY — is excluded from initial provider selection:
_select_provider filters on status equal to HEALTHY, so with a single
DEGRADED provider it selects nothing, refuting "filtered to exactly those
whose current health status is not Unhealthy". -/
theorem c6_degraded_provider_not_initially_selectable :
    Failover.get_health_status Failover.monitorDegraded "p1"
        = Failover.ProviderHealthStatus.DEGRADED
    ∧ (Failover.select_provider Failover.routerDegraded).1 = none := by
  exact ⟨rfl, rfl⟩

/-- C3 (amended): once coordinate_sequential_execution returns, the result
list is exactly one result per action of a prefix of the levels, in order;
with stop_on_failure unset the prefix is the whole level list. Actions of
levels that are not dispatched after a stopping failure are omitted from the
result list entirely — no result of any kind (in particular no
SkippedDueToUpstreamFailure marker, which does not exist in the code) is
recorded for them. -/
theorem c3_results_cover_exactly_a_prefix_of_levels
    (execFn : ExecCoord.ConcreteAction → ExecCoord.Ctx → ExecCoord.ActionResult)
    (action_groups : List (List ExecCoord.ConcreteAction)) (context : ExecCoord.Ctx) :
    ∃ k ≤ action_groups.length,
      ExecCoord.coordinate_sequential_execution execFn action_groups context
        = ((action_groups.take k).map
            (fun g => ExecCoord.coordinate_parallel_execution execFn g context)).flatten
      ∧ (ExecCoord.should_stop_on_failure context = false → k = action_groups.length) := by
  show ∃ k ≤ action_groups.length,
      ExecCoord.sequential_loop execFn context action_groups
        = ((action_groups.take k).map
            (fun g => ExecCoord.coordinate_parallel_execution execFn g context)).flatten
      ∧ (ExecCoord.should_stop_on_failure context = false → k = action_groups.length)
  induction action_groups with
  | nil => exact ⟨0, Nat.le_refl 0, rfl, fun _ => rfl⟩
  | cons group rest ih =>
    rw [ExecCoord.sequential_loop]
    by_cases hstop :
        (!((ExecCoord.coordinate_parallel_execution execFn group context).filter
            (fun r => !r.success)).isEmpty
          && ExecCoord.should_stop_on_failure context) = true
    · refine ⟨1, by simp, ?_, ?_⟩
      · rw [if_pos hstop]
        simp
      · intro hns
        rw [hns, Bool.and_false] at hstop
        exact absurd hstop (by simp)
    · obtain ⟨k, hk, heq, himp⟩ := ih
      refine ⟨k + 1, by simpa using hk, ?_, ?_⟩
      · rw [if_neg hstop]
        simp [heq, ExecCoord.coordinate_parallel_execution]
      · intro hns
        rw [himp hns]
        simp

/-- C3 witness: the amended statement at the concrete two-level batch with a
failing first level and stop_on_failure set. -/
theorem c3_results_cover_exactly_a_prefix_of_levels_witness :
    ∃ k ≤ ([[ExecCoord.actA], [ExecCoord.actB]] : List (List ExecCoord.ConcreteAction)).length,
      ExecCoord.coordinate_sequential_execution ExecCoord.failAExec
          [[ExecCoord.actA], [ExecCoord.actB]] ExecCoord.ctxStop
        = (([[ExecCoord.actA], [ExecCoord.actB]].take k).map
            (fun g => ExecCoord.coordinate_parallel_execution ExecCoord.failAExec g ExecCoord.ctxStop)).flatten
      ∧ (ExecCoord.should_stop_on_failure ExecCoord.ctxStop = false
          → k = ([[ExecCoord.actA], [ExecCoord.actB]] : List (List ExecCoord.ConcreteAction)).length) :=
  c3_results_cover_exactly_a_prefix_of_levels ExecCoord.failAExec
    [[ExecCoord.actA], [ExecCoord.actB]] ExecCoord.ctxStop

/-- C7: check_guardrail is the monotonic staircase over
usage = cost / limit (with the code's convention that a non-positive limit
yields usage 0): it returns HALT whenever usage reaches 1 or the exceeded
flag is already set, regardless of the thresholds configuration; below that,
with the hard limit at its fixed default 1, it returns DEGRADE at the soft
limit when graceful degradation is enabled and HALT there otherwise, WARN at
the warning threshold (taken from the state or the tracker default), and
CONTINUE below all thresholds. -/
theorem c7_check_guardrail_staircase
    (ct : Budget.CostTracker) (config : Budget.GuardrailConfig)
    (state : Budget.BudgetState) (cost usage wt : Rat)
    (hcost : state.total_cost_usd = some cost)
    (husage : usage =
      (if state.budget_limit_usd.getD ct.budget_limit_usd > 0
       then cost / state.budget_limit_usd.getD ct.budget_limit_usd else 0))
    (hwt : wt = state.budget_warning_threshold.getD ct.warning_threshold) :
    ((state.budget_exceeded.getD false = true ∨ 1 ≤ usage) →
        Budget.check_guardrail ct config state = .HALT)
    ∧ (config.hard_limit_threshold = 1 →
       state.budget_exceeded.getD false = false →
       usage < 1 →
        ((config.soft_limit_threshold ≤ usage →
            Budget.check_guardrail ct config state
              = (if config.enable_graceful_degradation then .DEGRADE else .HALT))
         ∧ (usage < config.soft_limit_threshold → wt ≤ usage →
            Budget.check_guardrail ct config state = .WARN)
         ∧ (usage < config.soft_limit_threshold → usage < wt →
            Budget.check_guardrail ct config state = .CONTINUE))) := by
  subst husage hwt
  simp only [Budget.check_guardrail, Budget.check_budget_status, hcost]
  constructor
  · intro h
    rcases h with hflag | husage1
    · simp [hflag]
    · have : decide
          ((if state.budget_limit_usd.getD ct.budget_limit_usd > 0
            then cost / state.budget_limit_usd.getD ct.budget_limit_usd else 0) ≥ 1) = true := by
        simpa using husage1
      simp [this]
  · intro hhard hflag husage1
    refine ⟨?_, ?_, ?_⟩
    · intro hsoft
      have h1 : ¬ ((if state.budget_limit_usd.getD ct.budget_limit_usd > 0
            then cost / state.budget_limit_usd.getD ct.budget_limit_usd else 0) ≥ 1) := by
        simpa using husage1
      simp [hflag, h1, hhard, hsoft]
    · intro hsoft hwarn
      have h1 : ¬ ((if state.budget_limit_usd.getD ct.budget_limit_usd > 0
            then cost / state.budget_limit_usd.getD ct.budget_limit_usd else 0) ≥ 1) := by
        simpa using husage1
      simp [hflag, h1, hhard, not_le.mpr hsoft, hwarn]
    · intro hsoft hwarn
      have h1 : ¬ ((if state.budget_limit_usd.getD ct.budget_limit_usd > 0
            then cost / state.budget_limit_usd.getD ct.budget_limit_usd else 0) ≥ 1) := by
        simpa using husage1
      simp [hflag, h1, hhard, not_le.mpr hsoft, not_le.mpr hwarn]

/-- C7 witness: the staircase at the spec's worked example — limit 10,
default thresholds; 8.50 warns, 9.10 degrades, 10.00 halts. -/
theorem c7_check_guardrail_staircase_witness :
    Budget.check_guardrail Budget.trackerD Budget.configD Budget.state85 = .WARN
    ∧ Budget.check_guardrail Budget.trackerD Budget.configD Budget.state91 = .DEGRADE
    ∧ Budget.check_guardrail Budget.trackerD Budget.configD Budget.state100 = .HALT := by
  refine ⟨?_, ?_, ?_⟩
  · have h := c7_check_guardrail_staircase Budget.trackerD Budget.configD Budget.state85
      (85/10) (85/100) (8/10) rfl
      (by norm_num [Budget.state85, Budget.trackerD])
      (by norm_num [Budget.state85, Budget.trackerD])
    exact (h.2 rfl rfl (by norm_num)).2.1
      (by norm_num [Budget.configD]) (by norm_num)
  · have h := c7_check_guardrail_staircase Budget.trackerD Budget.configD Budget.state91
      (91/10) (91/100) (8/10) rfl
      (by norm_num [Budget.state91, Budget.trackerD])
      (by norm_num [Budget.state91, Budget.trackerD])
    have h2 := (h.2 rfl rfl (by norm_num)).1 (by norm_num [Budget.configD])
    simpa [Budget.configD] using h2
  · have h := c7_check_guardrail_staircase Budget.trackerD Budget.configD Budget.state100
      10 1 (8/10) rfl
      (by norm_num [Budget.state100, Budget.trackerD])
      (by norm_num [Budget.state100, Budget.trackerD])
    exact h.1 (Or.inr (by norm_num))

/-- The running best of the Python min fold is either the seed or a list
member. -/
theorem foldl_choice_mem (f : Failover.ProviderConfig → Int) :
    ∀ (l : List Failover.ProviderConfig) (b : Failover.ProviderConfig),
      l.foldl (fun best q => if f q < f best then q else best) b ∈ b :: l := by
  intro l
  induction l with
  | nil => intro b; simp
  | cons q t ih =>
    intro b
    by_cases hq : f q < f b
    · have h := ih q
      simp only [List.foldl_cons, if_pos hq]
      rcases List.mem_cons.mp h with h1 | h1
      · exact List.mem_cons.mpr (Or.inr (List.mem_cons.mpr (Or.inl h1)))
      · exact List.mem_cons.mpr (Or.inr (List.mem_cons.mpr (Or.inr h1)))
    · have h := ih b
      simp only [List.foldl_cons, if_neg hq]
      rcases List.mem_cons.mp h with h1 | h1
      · exact List.mem_cons.mpr (Or.inl h1)
      · exact List.mem_cons.mpr (Or.inr (List.mem_cons.mpr (Or.inr h1)))

/-- Python min with key returns a member of its argument. -/
theorem py_min_by_mem (f : Failover.ProviderConfig → Int)
    (l : List Failover.ProviderConfig) (p : Failover.ProviderConfig)
    (h : Failover.py_min_by f l = some p) : p ∈ l := by
  cases l with
  | nil => simp [Failover.py_min_by] at h
  | cons q t =>
    simp only [Failover.py_min_by, Option.some.injEq] at h
    have hm := foldl_choice_mem f t q
    rw [h] at hm
    rcases List.mem_cons.mp hm with h1 | h1
    · simp [h1]
    · exact List.mem_cons.mpr (Or.inr h1)

/-- Whatever the strategy, _select_provider only ever returns a provider of
the pool whose current status is HEALTHY. -/
theorem select_provider_healthy (r : Failover.MultiProviderRouter)
    (p : Failover.ProviderConfig)
    (h : (Failover.select_provider r).1 = some p) :
    p ∈ r.providers
    ∧ Failover.get_health_status r.health_monitor p.provider_id
        = Failover.ProviderHealthStatus.HEALTHY := by
  simp only [Failover.select_provider] at h
  have hmem : p ∈ r.providers.filter
      (fun q => Failover.get_health_status r.health_monitor q.provider_id
        == Failover.ProviderHealthStatus.HEALTHY) := by
    split at h
    · simp at h
    · split at h
      · cases hl : r.providers.filter
            (fun q => Failover.get_health_status r.health_monitor q.provider_id
              == Failover.ProviderHealthStatus.HEALTHY) with
        | nil =>
          rw [hl] at h
          simp [Failover.round_robin_select] at h
        | cons p0 t =>
          rw [hl] at h
          simp only [Failover.round_robin_select] at h
          exact List.get?_mem h
      · exact py_min_by_mem _ _ _ (by simpa using h)
      · exact List.mem_of_mem_head? (Option.mem_def.mpr h)
      · exact List.mem_of_mem_head? (Option.mem_def.mpr h)
  exact ⟨List.mem_of_mem_filter hmem, by
    have := List.of_mem_filter hmem
    exact eq_of_beq this⟩

/-- _select_next_provider only returns providers whose status is not
UNHEALTHY. -/
theorem select_next_provider_not_unhealthy (r : Failover.MultiProviderRouter)
    (cur : String) (p : Failover.ProviderConfig)
    (h : Failover.select_next_provider r cur = some p) :
    Failover.get_health_status r.health_monitor p.provider_id
      ≠ Failover.ProviderHealthStatus.UNHEALTHY := by
  simp only [Failover.select_next_provider] at h
  split at h
  · cases h
  · have := List.find?_some h
    simpa using this

/-- C8: a recorded request result that brings a registered provider's
consecutive-failure count to at least the configured
max_consecutive_failures leaves its health status UNHEALTHY, and an
UNHEALTHY provider is never chosen by the router: initial selection only
returns providers whose status is HEALTHY, and failover selection only
returns providers whose status is not UNHEALTHY — so exclusion lasts until
subsequent recorded results change the status. -/
theorem c8_consecutive_failures_force_unhealthy_and_exclusion :
    (∀ (m : Failover.ProviderHealthMonitor) (pid : String) (success : Bool)
       (latency : Rat) (config : Failover.ProviderConfig)
       (metrics2 : Failover.ProviderHealthMetrics),
       dictGet m.providers pid = some config →
       dictGet (Failover.record_request_result m pid success latency).health_metrics pid
         = some metrics2 →
       metrics2.consecutive_failures ≥ config.max_consecutive_failures →
       Failover.get_health_status (Failover.record_request_result m pid success latency) pid
         = Failover.ProviderHealthStatus.UNHEALTHY)
    ∧ (∀ (r : Failover.MultiProviderRouter) (p : Failover.ProviderConfig),
       (Failover.select_provider r).1 = some p →
       Failover.get_health_status r.health_monitor p.provider_id
         ≠ Failover.ProviderHealthStatus.UNHEALTHY)
    ∧ (∀ (r : Failover.MultiProviderRouter) (cur : String) (p : Failover.ProviderConfig),
       Failover.select_next_provider r cur = some p →
       Failover.get_health_status r.health_monitor p.provider_id
         ≠ Failover.ProviderHealthStatus.UNHEALTHY) := by
  refine ⟨?_, ?_, ?_⟩
  · intro m pid success latency config metrics2 hconfig hmetrics hfail
    cases hm : dictGet m.health_metrics pid with
    | none =>
      rw [Failover.record_request_result, hm] at hmetrics
      rw [hm] at hmetrics
      cases hmetrics
    | some metrics0 =>
      rw [Failover.record_request_result, hm] at hmetrics ⊢
      simp only [hconfig] at hmetrics ⊢
      rw [dictGet_dictSet_self] at hmetrics
      have hval := Option.some.inj hmetrics
      simp only [Failover.get_health_status]
      rw [dictGet_dictSet_self]
      simp only [Option.getD_some]
      rw [hval]
      simp only [Failover.calculate_health_status]
      rw [if_pos hfail]
  · intro r p h
    rw [(select_provider_healthy r p h).2]
    simp
  · exact select_next_provider_not_unhealthy

/-- C8 witness: provW tolerates one consecutive failure; recording a single
failed request makes it UNHEALTHY; selection at the two-provider router
returns p1, which is not UNHEALTHY, and failover from p1 returns p2, not
UNHEALTHY either. -/
theorem c8_consecutive_failures_force_unhealthy_and_exclusion_witness :
    Failover.get_health_status
        (Failover.record_request_result Failover.monitorW "pw" false 0) "pw"
      = Failover.ProviderHealthStatus.UNHEALTHY
    ∧ Failover.get_health_status Failover.router2.health_monitor
        Failover.prov1.provider_id ≠ Failover.ProviderHealthStatus.UNHEALTHY
    ∧ Failover.get_health_status Failover.router2.health_monitor
        Failover.prov2.provider_id ≠ Failover.ProviderHealthStatus.UNHEALTHY := by
  refine ⟨?_, ?_, ?_⟩
  · exact c8_consecutive_failures_force_unhealthy_and_exclusion.1
      Failover.monitorW "pw" false 0 Failover.provW _ rfl rfl (by decide)
  · exact c8_consecutive_failures_force_unhealthy_and_exclusion.2.1
      Failover.router2 Failover.prov1 rfl
  · exact c8_consecutive_failures_force_unhealthy_and_exclusion.2.2
      Failover.router2 "p1" Failover.prov2 rfl

/-- C6 (amended): initial provider selection considers providers in
ascending priority order filtered to exactly those whose current health
status is HEALTHY — a DEGRADED provider, although not UNHEALTHY, is
excluded from initial selection; under health-based selection the returned
provider has minimal priority among the healthy ones. Only failover
selection (_select_next_provider) filters merely to providers that are not
UNHEALTHY, so a DEGRADED provider remains selectable there alone. -/
theorem c6_initial_selection_requires_healthy :
    (∀ (providers : List Failover.ProviderConfig) (m : Failover.ProviderHealthMonitor)
       (strategy : Failover.LoadBalancingStrategy) (p : Failover.ProviderConfig),
       (Failover.select_provider (Failover.router_init providers m strategy)).1 = some p →
       Failover.get_health_status m p.provider_id = Failover.ProviderHealthStatus.HEALTHY)
    ∧ (∀ (providers : List Failover.ProviderConfig) (m : Failover.ProviderHealthMonitor)
         (p q : Failover.ProviderConfig),
       (Failover.select_provider (Failover.router_init providers m .HEALTH_BASED)).1 = some p →
       q ∈ providers →
       Failover.get_health_status m q.provider_id = Failover.ProviderHealthStatus.HEALTHY →
       p.priority ≤ q.priority)
    ∧ (∀ (r : Failover.MultiProviderRouter) (cur : String) (p : Failover.ProviderConfig),
       Failover.select_next_provider r cur = some p →
       Failover.get_health_status r.health_monitor p.provider_id
         ≠ Failover.ProviderHealthStatus.UNHEALTHY) := by
  refine ⟨?_, ?_, ?_⟩
  · intro providers m strategy p h
    exact (select_provider_healthy _ p h).2
  · intro providers m p q h hq hqh
    simp only [Failover.select_provider] at h
    split at h
    · cases h
    · have hsorted : List.Sorted
          (fun (a b : Failover.ProviderConfig) => a.priority ≤ b.priority)
          ((Failover.router_init providers m .HEALTH_BASED).providers) :=
        List.sorted_insertionSort _ providers
      have hson : List.Sorted
          (fun (a b : Failover.ProviderConfig) => a.priority ≤ b.priority)
          (((Failover.router_init providers m .HEALTH_BASED).providers).filter
            (fun x => Failover.get_health_status
                (Failover.router_init providers m .HEALTH_BASED).health_monitor x.provider_id
              == Failover.ProviderHealthStatus.HEALTHY)) :=
        hsorted.filter _
      have hqmem : q ∈ ((Failover.router_init providers m .HEALTH_BASED).providers).filter
          (fun x => Failover.get_health_status
              (Failover.router_init providers m .HEALTH_BASED).health_monitor x.provider_id
            == Failover.ProviderHealthStatus.HEALTHY) := by
        refine List.mem_filter.mpr ⟨?_, ?_⟩
        · simpa [Failover.router_init] using hq
        · simpa using hqh
      cases hh : ((Failover.router_init providers m .HEALTH_BASED).providers).filter
          (fun x => Failover.get_health_status
              (Failover.router_init providers m .HEALTH_BASED).health_monitor x.provider_id
            == Failover.ProviderHealthStatus.HEALTHY) with
      | nil =>
        rw [hh] at hqmem
        cases hqmem
      | cons p0 t =>
        rw [hh] at h hqmem hson
        have hp0 : p0 = p := by simpa [Failover.router_init] using h
        subst hp0
        rcases List.mem_cons.mp hqmem with h1 | h1
        · rw [h1]
        · exact List.rel_of_sorted_cons hson q h1
  · exact select_next_provider_not_unhealthy

/-- C6 witness: at the healthy two-provider router the amended statement
instantiates to prov1 being selected with HEALTHY status and minimal
priority, and failover from p1 yielding a provider that is not UNHEALTHY. -/
theorem c6_initial_selection_requires_healthy_witness :
    Failover.get_health_status (Failover.monitor_init [Failover.prov1, Failover.prov2])
        Failover.prov1.provider_id = Failover.ProviderHealthStatus.HEALTHY
    ∧ Failover.prov1.priority ≤ Failover.prov2.priority
    ∧ Failover.get_health_status Failover.router2.health_monitor
        Failover.prov2.provider_id ≠ Failover.ProviderHealthStatus.UNHEALTHY := by
  refine ⟨?_, ?_, ?_⟩
  · exact c6_initial_selection_requires_healthy.1
      [Failover.prov1, Failover.prov2] (Failover.monitor_init [Failover.prov1, Failover.prov2])
      .HEALTH_BASED Failover.prov1 rfl
  · exact c6_initial_selection_requires_healthy.2.1
      [Failover.prov1, Failover.prov2] (Failover.monitor_init [Failover.prov1, Failover.prov2])
      Failover.prov1 Failover.prov2 rfl (by simp) rfl
  · exact c6_initial_selection_requires_healthy.2.2
      Failover.router2 "p1" Failover.prov2 rfl

/-- An admitting per-agent check leaves the bucket holding exactly one token
fewer than its refilled count. -/
theorem can_proceed_local_consumes (cfg : RateLimit.RateLimitConfig)
    (b : RateLimit.LocalBucketState) (now : Rat)
    (h : (RateLimit.can_proceed_local cfg b now).1 = true) :
    (RateLimit.can_proceed_local cfg b now).2.tokens
      = (RateLimit.local_refill cfg b now).tokens - 1 := by
  by_cases h1 : (RateLimit.local_refill cfg b now).tokens ≥ 1
  · simp [RateLimit.can_proceed_local, h1]
  · simp [RateLimit.can_proceed_local, h1] at h

/-- C10: when the per-agent check admits but the global check denies,
CoordinatedRateLimiter.can_proceed returns False while the per-agent
bucket's token count has nevertheless been decremented by one relative to
its refilled value — the token consumed by the first check is never
restored, so a denied coordinated admission is not atomic. -/
theorem c10_denied_coordination_still_consumes_per_agent_token
    (pcfg gcfg : RateLimit.RateLimitConfig) (s : RateLimit.CoordinatedState) (now : Rat)
    (h1 : (RateLimit.can_proceed_local pcfg s.per_agent now).1 = true)
    (h2 : (RateLimit.global_can_proceed gcfg s.global_bucket now).1 = false) :
    (RateLimit.coordinated_can_proceed pcfg gcfg s now).1 = false
    ∧ (RateLimit.coordinated_can_proceed pcfg gcfg s now).2.per_agent.tokens
        = (RateLimit.local_refill pcfg s.per_agent now).tokens - 1 := by
  constructor
  · simp [RateLimit.coordinated_can_proceed, h1, h2]
  · have hc : (RateLimit.coordinated_can_proceed pcfg gcfg s now).2.per_agent
        = (RateLimit.can_proceed_local pcfg s.per_agent now).2 := by
      simp [RateLimit.coordinated_can_proceed, h1, h2]
    rw [hc]
    exact can_proceed_local_consumes pcfg s.per_agent now h1

/-- C10 witness: per-agent bucket of five tokens, empty global bucket, one
coordinated check at instant 0: denied overall, yet the per-agent bucket
drops to four tokens (its refilled count five, minus the consumed one). -/
theorem c10_denied_coordination_still_consumes_per_agent_token_witness :
    (RateLimit.coordinated_can_proceed RateLimit.cfgCoordLocal RateLimit.cfgGlobal
        RateLimit.sCoord0 0).1 = false
    ∧ (RateLimit.coordinated_can_proceed RateLimit.cfgCoordLocal RateLimit.cfgGlobal
        RateLimit.sCoord0 0).2.per_agent.tokens
      = (RateLimit.local_refill RateLimit.cfgCoordLocal RateLimit.sCoord0.per_agent 0).tokens - 1 :=
  c10_denied_coordination_still_consumes_per_agent_token
    RateLimit.cfgCoordLocal RateLimit.cfgGlobal RateLimit.sCoord0 0
    (by norm_num [RateLimit.can_proceed_local, RateLimit.local_refill, RateLimit.py_int,
      RateLimit.cfgCoordLocal, RateLimit.sCoord0])
    (by norm_num [RateLimit.global_can_proceed, RateLimit.cfgGlobal, RateLimit.sCoord0])

/-- One per-agent admission check: the admission (counted as one) plus the
remaining tokens never exceed the prior tokens plus refill_rate times the
elapsed interval; tokens stay within [0, capacity]; the refill instant
advances to now. -/
theorem local_step_bound (cfg : RateLimit.RateLimitConfig) (b : RateLimit.LocalBucketState)
    (now : Rat) (hW : 0 < cfg.window_seconds) (hcap : 0 ≤ cfg.requests_per_window)
    (htok0 : 0 ≤ b.tokens) (htokc : b.tokens ≤ cfg.requests_per_window)
    (hnow : b.last_refill ≤ now) :
    ((if (RateLimit.can_proceed_local cfg b now).1 then (1 : Rat) else 0)
        + ((RateLimit.can_proceed_local cfg b now).2.tokens : Rat)
      ≤ (b.tokens : Rat)
        + ((cfg.requests_per_window : Rat) / (cfg.window_seconds : Rat)) * (now - b.last_refill))
    ∧ 0 ≤ (RateLimit.can_proceed_local cfg b now).2.tokens
    ∧ (RateLimit.can_proceed_local cfg b now).2.tokens ≤ cfg.requests_per_window
    ∧ (RateLimit.can_proceed_local cfg b now).2.last_refill = now := by
  have hWQ : (0 : Rat) < (cfg.window_seconds : Rat) := by exact_mod_cast hW
  have hcapQ : (0 : Rat) ≤ (cfg.requests_per_window : Rat) := by exact_mod_cast hcap
  have htok0Q : (0 : Rat) ≤ (b.tokens : Rat) := by exact_mod_cast htok0
  have hrate : 0 ≤ (cfg.requests_per_window : Rat) / (cfg.window_seconds : Rat) :=
    div_nonneg hcapQ (le_of_lt hWQ)
  have helapsed : 0 ≤ now - b.last_refill := by linarith
  have hb1 : (((RateLimit.local_refill cfg b now).tokens : Rat)
        ≤ (b.tokens : Rat)
          + ((cfg.requests_per_window : Rat) / (cfg.window_seconds : Rat)) * (now - b.last_refill))
      ∧ 0 ≤ (RateLimit.local_refill cfg b now).tokens
      ∧ (RateLimit.local_refill cfg b now).tokens ≤ cfg.requests_per_window
      ∧ (RateLimit.local_refill cfg b now).last_refill = now := by
    by_cases hcase : now - b.last_refill ≥ (cfg.window_seconds : Rat)
    · have hrf : RateLimit.local_refill cfg b now
          = { tokens := cfg.requests_per_window, last_refill := now } := by
        simp [RateLimit.local_refill, hcase]
      have hcapeq : ((cfg.requests_per_window : Rat) / (cfg.window_seconds : Rat))
          * (cfg.window_seconds : Rat) = (cfg.requests_per_window : Rat) :=
        div_mul_cancel₀ _ (ne_of_gt hWQ)
      have hge : (cfg.requests_per_window : Rat)
          ≤ ((cfg.requests_per_window : Rat) / (cfg.window_seconds : Rat)) * (now - b.last_refill) := by
        calc (cfg.requests_per_window : Rat)
            = ((cfg.requests_per_window : Rat) / (cfg.window_seconds : Rat))
                * (cfg.window_seconds : Rat) := hcapeq.symm
          _ ≤ ((cfg.requests_per_window : Rat) / (cfg.window_seconds : Rat))
                * (now - b.last_refill) := by
              exact mul_le_mul_of_nonneg_left hcase hrate
      rw [hrf]
      exact ⟨by simpa using by linarith, hcap, le_refl _, rfl⟩
    · have hargnn : 0 ≤ (now - b.last_refill)
          * ((cfg.requests_per_window : Rat) / (cfg.window_seconds : Rat)) :=
        mul_nonneg helapsed hrate
      have hpy : RateLimit.py_int ((now - b.last_refill)
            * ((cfg.requests_per_window : Rat) / (cfg.window_seconds : Rat)))
          = ⌊(now - b.last_refill)
            * ((cfg.requests_per_window : Rat) / (cfg.window_seconds : Rat))⌋ := by
        rw [RateLimit.py_int, if_neg (not_lt.mpr hargnn)]
      have hrf : RateLimit.local_refill cfg b now
          = { tokens := min cfg.requests_per_window
                (b.tokens + RateLimit.py_int ((now - b.last_refill)
                  * ((cfg.requests_per_window : Rat) / (cfg.window_seconds : Rat)))),
              last_refill := now } := by
        simp [RateLimit.local_refill, hcase]
      have hfloornn : 0 ≤ RateLimit.py_int ((now - b.last_refill)
          * ((cfg.requests_per_window : Rat) / (cfg.window_seconds : Rat))) := by
        rw [hpy]
        exact Int.floor_nonneg.mpr hargnn
      have hfloorle : ((RateLimit.py_int ((now - b.last_refill)
            * ((cfg.requests_per_window : Rat) / (cfg.window_seconds : Rat)))) : Rat)
          ≤ (now - b.last_refill)
            * ((cfg.requests_per_window : Rat) / (cfg.window_seconds : Rat)) := by
        rw [hpy]
        exact Int.floor_le _
      rw [hrf]
      refine ⟨?_, le_min hcap (by linarith), min_le_left _ _, rfl⟩
      have hminle : ((min cfg.requests_per_window
            (b.tokens + RateLimit.py_int ((now - b.last_refill)
              * ((cfg.requests_per_window : Rat) / (cfg.window_seconds : Rat)))) : Int) : Rat)
          ≤ ((b.tokens + RateLimit.py_int ((now - b.last_refill)
              * ((cfg.requests_per_window : Rat) / (cfg.window_seconds : Rat)))) : Int) := by
        exact_mod_cast min_le_right _ _
      push_cast at hminle
      have hcomm : (now - b.last_refill)
            * ((cfg.requests_per_window : Rat) / (cfg.window_seconds : Rat))
          = ((cfg.requests_per_window : Rat) / (cfg.window_seconds : Rat))
            * (now - b.last_refill) := mul_comm _ _
      simp only [RateLimit.LocalBucketState.tokens]
      push_cast
      linarith [hfloorle]
  obtain ⟨h1, h2, h3, h4⟩ := hb1
  by_cases hge : (RateLimit.local_refill cfg b now).tokens ≥ 1
  · have hfst : (RateLimit.can_proceed_local cfg b now).1 = true := by
      simp [RateLimit.can_proceed_local, hge]
    have hsnd : (RateLimit.can_proceed_local cfg b now).2
        = { tokens := (RateLimit.local_refill cfg b now).tokens - 1,
            last_refill := (RateLimit.local_refill cfg b now).last_refill } := by
      simp [RateLimit.can_proceed_local, hge]
    rw [hfst, hsnd]
    refine ⟨?_, by simp; omega, by simp; omega, by simp [h4]⟩
    simp only [if_true]
    push_cast
    linarith
  · have hfst : (RateLimit.can_proceed_local cfg b now).1 = false := by
      simp [RateLimit.can_proceed_local, hge]
    have hsnd : (RateLimit.can_proceed_local cfg b now).2
        = RateLimit.local_refill cfg b now := by
      simp [RateLimit.can_proceed_local, hge]
    rw [hfst, hsnd]
    refine ⟨?_, h2, h3, h4⟩
    norm_num
    linarith

/-- One global admission check: the admission plus remaining tokens never
exceed the prior tokens plus refill_rate times the elapsed interval; tokens
stay within [0, capacity]; the refill instant advances to now. -/
theorem global_step_bound (cfg : RateLimit.RateLimitConfig) (b : RateLimit.GlobalBucketState)
    (now : Rat) (hW : 0 < cfg.window_seconds) (hcap : 0 ≤ cfg.requests_per_window)
    (htok0 : 0 ≤ b.tokens) (htokc : b.tokens ≤ (cfg.requests_per_window : Rat))
    (hnow : b.last_refill ≤ now) :
    ((if (RateLimit.global_can_proceed cfg b now).1 then (1 : Rat) else 0)
        + (RateLimit.global_can_proceed cfg b now).2.tokens
      ≤ b.tokens
        + ((cfg.requests_per_window : Rat) / (cfg.window_seconds : Rat)) * (now - b.last_refill))
    ∧ 0 ≤ (RateLimit.global_can_proceed cfg b now).2.tokens
    ∧ (RateLimit.global_can_proceed cfg b now).2.tokens ≤ (cfg.requests_per_window : Rat)
    ∧ (RateLimit.global_can_proceed cfg b now).2.last_refill = now := by
  have hWQ : (0 : Rat) < (cfg.window_seconds : Rat) := by exact_mod_cast hW
  have hcapQ : (0 : Rat) ≤ (cfg.requests_per_window : Rat) := by exact_mod_cast hcap
  have hrate : 0 ≤ (cfg.requests_per_window : Rat) / (cfg.window_seconds : Rat) :=
    div_nonneg hcapQ (le_of_lt hWQ)
  have helapsed : 0 ≤ now - b.last_refill := by linarith
  have haddnn : 0 ≤ (now - b.last_refill)
      * ((cfg.requests_per_window : Rat) / (cfg.window_seconds : Rat)) :=
    mul_nonneg helapsed hrate
  have hminle : min (cfg.requests_per_window : Rat)
        (b.tokens + (now - b.last_refill)
          * ((cfg.requests_per_window : Rat) / (cfg.window_seconds : Rat)))
      ≤ b.tokens + (now - b.last_refill)
          * ((cfg.requests_per_window : Rat) / (cfg.window_seconds : Rat)) :=
    min_le_right _ _
  have hminnn : 0 ≤ min (cfg.requests_per_window : Rat)
      (b.tokens + (now - b.last_refill)
        * ((cfg.requests_per_window : Rat) / (cfg.window_seconds : Rat))) :=
    le_min hcapQ (by linarith)
  have hmincap : min (cfg.requests_per_window : Rat)
      (b.tokens + (now - b.last_refill)
        * ((cfg.requests_per_window : Rat) / (cfg.window_seconds : Rat)))
      ≤ (cfg.requests_per_window : Rat) := min_le_left _ _
  by_cases hge : min (cfg.requests_per_window : Rat)
      (b.tokens + (now - b.last_refill)
        * ((cfg.requests_per_window : Rat) / (cfg.window_seconds : Rat))) ≥ 1
  · have hfst : (RateLimit.global_can_proceed cfg b now).1 = true := by
      simp only [RateLimit.global_can_proceed]
      rw [if_pos hge]
    have hsnd : (RateLimit.global_can_proceed cfg b now).2
        = { tokens := min (cfg.requests_per_window : Rat)
              (b.tokens + (now - b.last_refill)
                * ((cfg.requests_per_window : Rat) / (cfg.window_seconds : Rat))) - 1,
            last_refill := now } := by
      simp only [RateLimit.global_can_proceed]
      rw [if_pos hge]
    rw [hfst, hsnd]
    have hcm := mul_comm (now - b.last_refill)
      ((cfg.requests_per_window : Rat) / (cfg.window_seconds : Rat))
    refine ⟨?_, by dsimp only; linarith, by dsimp only; linarith, rfl⟩
    dsimp only
    rw [if_pos rfl]
    linarith
  · have hfst : (RateLimit.global_can_proceed cfg b now).1 = false := by
      simp only [RateLimit.global_can_proceed]
      rw [if_neg hge]
    have hsnd : (RateLimit.global_can_proceed cfg b now).2
        = { tokens := min (cfg.requests_per_window : Rat)
              (b.tokens + (now - b.last_refill)
                * ((cfg.requests_per_window : Rat) / (cfg.window_seconds : Rat))),
            last_refill := now } := by
      simp only [RateLimit.global_can_proceed]
      rw [if_neg hge]
    rw [hfst, hsnd]
    have hcm := mul_comm (now - b.last_refill)
      ((cfg.requests_per_window : Rat) / (cfg.window_seconds : Rat))
    refine ⟨?_, by dsimp only; linarith, by dsimp only; linarith, rfl⟩
    dsimp only
    rw [if_neg (by simp : ¬(false = true))]
    linarith

/-- Over any nondecreasing check sequence bounded by T, the per-agent
admissions from a bucket state are bounded by its tokens plus refill_rate
times (T - last_refill). -/
theorem run_local_bound (cfg : RateLimit.RateLimitConfig)
    (hW : 0 < cfg.window_seconds) (hcap : 0 ≤ cfg.requests_per_window) :
    ∀ (ts : List Rat) (b : RateLimit.LocalBucketState) (T : Rat),
      0 ≤ b.tokens → b.tokens ≤ cfg.requests_per_window → b.last_refill ≤ T →
      List.Chain' (· ≤ ·) (b.last_refill :: ts) →
      (∀ x ∈ ts, x ≤ T) →
      (((RateLimit.run_local cfg b ts).1 : Nat) : Rat)
        ≤ (b.tokens : Rat)
          + ((cfg.requests_per_window : Rat) / (cfg.window_seconds : Rat)) * (T - b.last_refill) := by
  intro ts
  induction ts with
  | nil =>
    intro b T htok0 htokc hT hchain hub
    have hrate : 0 ≤ (cfg.requests_per_window : Rat) / (cfg.window_seconds : Rat) :=
      div_nonneg (by exact_mod_cast hcap) (by exact_mod_cast (le_of_lt hW))
    have htok0Q : (0 : Rat) ≤ (b.tokens : Rat) := by exact_mod_cast htok0
    have : 0 ≤ ((cfg.requests_per_window : Rat) / (cfg.window_seconds : Rat))
        * (T - b.last_refill) := mul_nonneg hrate (by linarith)
    simp [RateLimit.run_local]
    linarith
  | cons t ts ih =>
    intro b T htok0 htokc hT hchain hub
    have hchain2 := List.chain'_cons.mp hchain
    have hnow : b.last_refill ≤ t := hchain2.1
    have htT : t ≤ T := hub t (List.mem_cons_self t ts)
    have hstep := local_step_bound cfg b t hW hcap htok0 htokc hnow
    obtain ⟨hs1, hs2, hs3, hs4⟩ := hstep
    have hihchain : List.Chain'
        (· ≤ ·) ((RateLimit.can_proceed_local cfg b t).2.last_refill :: ts) := by
      rw [hs4]
      exact hchain2.2
    have hihT : (RateLimit.can_proceed_local cfg b t).2.last_refill ≤ T := by
      rw [hs4]
      exact htT
    have hih := ih (RateLimit.can_proceed_local cfg b t).2 T hs2 hs3 hihT hihchain
      (fun x hx => hub x (List.mem_cons_of_mem t hx))
    rw [hs4] at hih
    have hrun : (RateLimit.run_local cfg b (t :: ts)).1
        = (if (RateLimit.can_proceed_local cfg b t).1 then 1 else 0)
          + (RateLimit.run_local cfg (RateLimit.can_proceed_local cfg b t).2 ts).1 := by
      simp [RateLimit.run_local]
    rw [hrun]
    have hcm : ((cfg.requests_per_window : Rat) / (cfg.window_seconds : Rat)) * (t - b.last_refill)
          + ((cfg.requests_per_window : Rat) / (cfg.window_seconds : Rat)) * (T - t)
        = ((cfg.requests_per_window : Rat) / (cfg.window_seconds : Rat)) * (T - b.last_refill) := by
      ring
    cases hbool : (RateLimit.can_proceed_local cfg b t).1 with
    | true =>
      rw [hbool] at hs1
      rw [if_pos rfl] at hs1
      push_cast
      norm_num
      push_cast at hih
      linarith
    | false =>
      rw [hbool] at hs1
      rw [if_neg (by simp : ¬(false = true))] at hs1
      push_cast
      norm_num
      push_cast at hih
      linarith

/-- Over any nondecreasing check sequence bounded by T, the global
admissions from a bucket state are bounded by its tokens plus refill_rate
times (T - last_refill). -/
theorem run_global_bound (cfg : RateLimit.RateLimitConfig)
    (hW : 0 < cfg.window_seconds) (hcap : 0 ≤ cfg.requests_per_window) :
    ∀ (ts : List Rat) (b : RateLimit.GlobalBucketState) (T : Rat),
      0 ≤ b.tokens → b.tokens ≤ (cfg.requests_per_window : Rat) → b.last_refill ≤ T →
      List.Chain' (· ≤ ·) (b.last_refill :: ts) →
      (∀ x ∈ ts, x ≤ T) →
      (((RateLimit.run_global cfg b ts).1 : Nat) : Rat)
        ≤ b.tokens
          + ((cfg.requests_per_window : Rat) / (cfg.window_seconds : Rat)) * (T - b.last_refill) := by
  intro ts
  induction ts with
  | nil =>
    intro b T htok0 htokc hT hchain hub
    have hrate : 0 ≤ (cfg.requests_per_window : Rat) / (cfg.window_seconds : Rat) :=
      div_nonneg (by exact_mod_cast hcap) (by exact_mod_cast (le_of_lt hW))
    have : 0 ≤ ((cfg.requests_per_window : Rat) / (cfg.window_seconds : Rat))
        * (T - b.last_refill) := mul_nonneg hrate (by linarith)
    simp [RateLimit.run_global]
    linarith
  | cons t ts ih =>
    intro b T htok0 htokc hT hchain hub
    have hchain2 := List.chain'_cons.mp hchain
    have hnow : b.last_refill ≤ t := hchain2.1
    have htT : t ≤ T := hub t (List.mem_cons_self t ts)
    have hstep := global_step_bound cfg b t hW hcap htok0 htokc hnow
    obtain ⟨hs1, hs2, hs3, hs4⟩ := hstep
    have hihchain : List.Chain'
        (· ≤ ·) ((RateLimit.global_can_proceed cfg b t).2.last_refill :: ts) := by
      rw [hs4]
      exact hchain2.2
    have hihT : (RateLimit.global_can_proceed cfg b t).2.last_refill ≤ T := by
      rw [hs4]
      exact htT
    have hih := ih (RateLimit.global_can_proceed cfg b t).2 T hs2 hs3 hihT hihchain
      (fun x hx => hub x (List.mem_cons_of_mem t hx))
    rw [hs4] at hih
    have hrun : (RateLimit.run_global cfg b (t :: ts)).1
        = (if (RateLimit.global_can_proceed cfg b t).1 then 1 else 0)
          + (RateLimit.run_global cfg (RateLimit.global_can_proceed cfg b t).2 ts).1 := by
      simp [RateLimit.run_global]
    rw [hrun]
    have hcm : ((cfg.requests_per_window : Rat) / (cfg.window_seconds : Rat)) * (t - b.last_refill)
          + ((cfg.requests_per_window : Rat) / (cfg.window_seconds : Rat)) * (T - t)
        = ((cfg.requests_per_window : Rat) / (cfg.window_seconds : Rat)) * (T - b.last_refill) := by
      ring
    cases hbool : (RateLimit.global_can_proceed cfg b t).1 with
    | true =>
      rw [hbool] at hs1
      rw [if_pos rfl] at hs1
      push_cast
      norm_num
      linarith
    | false =>
      rw [hbool] at hs1
      rw [if_neg (by simp : ¬(false = true))] at hs1
      push_cast
      norm_num
      linarith

/-- C9: for both the per-agent and the global token bucket, over any
nondecreasing sequence of admission checks within t seconds of the initial
bucket state (tokens within [0, capacity]), the number of admissions
granted never exceeds capacity + refill_rate * t, where capacity is
requests_per_window and refill_rate is requests_per_window /
window_seconds. -/
theorem c9_token_bucket_admission_bound :
    (∀ (cfg : RateLimit.RateLimitConfig) (b : RateLimit.LocalBucketState)
       (ts : List Rat) (t : Rat),
       0 < cfg.window_seconds → 0 ≤ cfg.requests_per_window →
       0 ≤ b.tokens → b.tokens ≤ cfg.requests_per_window → 0 ≤ t →
       List.Chain' (· ≤ ·) (b.last_refill :: ts) →
       (∀ x ∈ ts, x ≤ b.last_refill + t) →
       (((RateLimit.run_local cfg b ts).1 : Nat) : Rat)
         ≤ (cfg.requests_per_window : Rat)
           + ((cfg.requests_per_window : Rat) / (cfg.window_seconds : Rat)) * t)
    ∧ (∀ (cfg : RateLimit.RateLimitConfig) (b : RateLimit.GlobalBucketState)
         (ts : List Rat) (t : Rat),
       0 < cfg.window_seconds → 0 ≤ cfg.requests_per_window →
       0 ≤ b.tokens → b.tokens ≤ (cfg.requests_per_window : Rat) → 0 ≤ t →
       List.Chain' (· ≤ ·) (b.last_refill :: ts) →
       (∀ x ∈ ts, x ≤ b.last_refill + t) →
       (((RateLimit.run_global cfg b ts).1 : Nat) : Rat)
         ≤ (cfg.requests_per_window : Rat)
           + ((cfg.requests_per_window : Rat) / (cfg.window_seconds : Rat)) * t) := by
  constructor
  · intro cfg b ts t hW hcap htok0 htokc ht hchain hub
    have h := run_local_bound cfg hW hcap ts b (b.last_refill + t) htok0 htokc
      (by linarith) hchain hub
    have htokcQ : (b.tokens : Rat) ≤ (cfg.requests_per_window : Rat) := by exact_mod_cast htokc
    have hsimp : b.last_refill + t - b.last_refill = t := by ring
    rw [hsimp] at h
    linarith
  · intro cfg b ts t hW hcap htok0 htokc ht hchain hub
    have h := run_global_bound cfg hW hcap ts b (b.last_refill + t) htok0 htokc
      (by linarith) hchain hub
    have hsimp : b.last_refill + t - b.last_refill = t := by ring
    rw [hsimp] at h
    linarith

/-- C9 witness: three immediate checks against a full 2-per-second per-agent
bucket and a full 3-per-second global bucket, elapsed time zero: the
admission counts are bounded by the respective capacities. -/
theorem c9_token_bucket_admission_bound_witness :
    ((((RateLimit.run_local RateLimit.cfgLocal RateLimit.bLocal0 [0, 0, 0]).1 : Nat) : Rat)
      ≤ (RateLimit.cfgLocal.requests_per_window : Rat)
        + ((RateLimit.cfgLocal.requests_per_window : Rat)
            / (RateLimit.cfgLocal.window_seconds : Rat)) * 0)
    ∧ ((((RateLimit.run_global RateLimit.cfgGlobal RateLimit.bGlobal0 [0, 0, 0]).1 : Nat) : Rat)
      ≤ (RateLimit.cfgGlobal.requests_per_window : Rat)
        + ((RateLimit.cfgGlobal.requests_per_window : Rat)
            / (RateLimit.cfgGlobal.window_seconds : Rat)) * 0) := by
  constructor
  · exact c9_token_bucket_admission_bound.1 RateLimit.cfgLocal RateLimit.bLocal0 [0, 0, 0] 0
      (by decide) (by decide) (by decide) (by decide) (by norm_num)
      (by norm_num [RateLimit.bLocal0, List.chain'_cons])
      (by norm_num [RateLimit.bLocal0])
  · exact c9_token_bucket_admission_bound.2 RateLimit.cfgGlobal RateLimit.bGlobal0 [0, 0, 0] 0
      (by decide) (by decide) (by norm_num [RateLimit.bGlobal0])
      (by norm_num [RateLimit.bGlobal0, RateLimit.cfgGlobal])
      (by norm_num)
      (by norm_num [RateLimit.bGlobal0, List.chain'_cons])
      (by norm_num [RateLimit.bGlobal0])

/-- Fold preservation: a predicate stable under every step holds of the
fold. -/
theorem foldl_preserve {α β : Type} (P : β → Prop) (op : β → α → β) :
    ∀ (l : List α) (b : β), P b → (∀ b2 a, a ∈ l → P b2 → P (op b2 a)) →
      P (l.foldl op b) := by
  intro l
  induction l with
  | nil => intro b hb _; exact hb
  | cons a t ih =>
    intro b hb hstep
    simp only [List.foldl_cons]
    exact ih _ (hstep b a (List.mem_cons_self a t) hb)
      (fun b2 a2 ha2 hb2 => hstep b2 a2 (List.mem_cons_of_mem a ha2) hb2)

/-- A set insertion is never empty. -/
theorem setAdd_ne_nil (s : List String) (x : String) : ExecCoord.setAdd s x ≠ [] := by
  by_cases h : x ∈ s
  · simp only [ExecCoord.setAdd, if_pos h]
    intro hnil
    rw [hnil] at h
    cases h
  · simp only [ExecCoord.setAdd, if_neg h]
    simp

/-- Members of a set insertion come from the set or are the new element. -/
theorem mem_setAdd (s : List String) (x y : String) (h : y ∈ ExecCoord.setAdd s x) :
    y ∈ s ∨ y = x := by
  by_cases hx : x ∈ s
  · simp only [ExecCoord.setAdd, if_pos hx] at h
    exact Or.inl h
  · simp only [ExecCoord.setAdd, if_neg hx] at h
    rcases List.mem_append.mp h with h1 | h1
    · exact Or.inl h1
    · simp at h1
      exact Or.inr h1

/-- Every entry of the built dependency graph is a nonempty set of ids drawn
from the batch. -/
theorem build_graph_entries (actions : List ExecCoord.ConcreteAction) :
    ∀ k l, dictGet (ExecCoord.build_dependency_graph actions) k = some l →
      l ≠ [] ∧ ∀ e ∈ l, e ∈ actions.map (fun x => x.action_id) := by
  simp only [ExecCoord.build_dependency_graph]
  apply foldl_preserve
    (fun g => ∀ k l, dictGet g k = some l →
      l ≠ [] ∧ ∀ e ∈ l, e ∈ actions.map (fun x => x.action_id))
  · intro k l h
    cases h
  · intro g a _ hg
    apply foldl_preserve
      (fun g2 => ∀ k l, dictGet g2 k = some l →
        l ≠ [] ∧ ∀ e ∈ l, e ∈ actions.map (fun x => x.action_id))
      _ a.dependencies g hg
    intro g2 dep hdep hg2
    by_cases hguard : dep ∈ actions.map (fun x => x.action_id)
    · rw [if_pos hguard]
      intro k l h
      by_cases hk : k = a.action_id
      · subst hk
        rw [dictGet_dictSet_self] at h
        have hl := Option.some.inj h
        constructor
        · rw [← hl]
          exact setAdd_ne_nil _ _
        · intro e he
          rw [← hl] at he
          rcases mem_setAdd _ _ _ he with h1 | h1
          · cases hcur : dictGet g2 a.action_id with
            | none =>
              rw [hcur] at h1
              cases h1
            | some l0 =>
              rw [hcur] at h1
              exact (hg2 a.action_id l0 hcur).2 e h1
          · rw [h1]
            exact hguard
      · rw [dictGet_dictSet_ne _ _ _ _ hk] at h
        exact hg2 k l h
    · rw [if_neg hguard]
      exact hg2

/-- The inner graph-building fold never removes keys. -/
theorem build_inner_preserves_isSome (actions : List ExecCoord.ConcreteAction)
    (a : ExecCoord.ConcreteAction) (k : String) (deps : List String)
    (g : List (String × List String)) (hg : (dictGet g k).isSome) :
    (dictGet (deps.foldl
      (fun g2 dep_id =>
        if dep_id ∈ actions.map (fun x => x.action_id) then
          dictSet g2 a.action_id
            (ExecCoord.setAdd ((dictGet g2 a.action_id).getD []) dep_id)
        else g2) g) k).isSome := by
  apply foldl_preserve (fun g2 => (dictGet g2 k).isSome = true) _ deps g hg
  intro g2 dep _ hg2
  by_cases hguard : dep ∈ actions.map (fun x => x.action_id)
  · rw [if_pos hguard]
    exact (dictGet_dictSet_isSome _ _ _ _).mpr (Or.inr hg2)
  · rw [if_neg hguard]
    exact hg2

/-- The outer graph-building fold never removes keys. -/
theorem build_outer_preserves_isSome (actions : List ExecCoord.ConcreteAction)
    (k : String) (acts : List ExecCoord.ConcreteAction)
    (g : List (String × List String)) (hg : (dictGet g k).isSome) :
    (dictGet (acts.foldl
      (fun graph x =>
        x.dependencies.foldl
          (fun g2 dep_id =>
            if dep_id ∈ actions.map (fun y => y.action_id) then
              dictSet g2 x.action_id
                (ExecCoord.setAdd ((dictGet g2 x.action_id).getD []) dep_id)
            else g2) graph) g) k).isSome := by
  apply foldl_preserve (fun g2 => (dictGet g2 k).isSome = true) _ acts g hg
  intro g2 x _ hg2
  exact build_inner_preserves_isSome actions x k x.dependencies g2 hg2

/-- Processing the dependencies of an action with a dependency naming a
batch action creates its graph entry. -/
theorem build_inner_creates (actions : List ExecCoord.ConcreteAction)
    (a : ExecCoord.ConcreteAction) :
    ∀ (deps : List String) (g : List (String × List String)),
      (∃ d ∈ deps, d ∈ actions.map (fun x => x.action_id)) →
      (dictGet (deps.foldl
        (fun g2 dep_id =>
          if dep_id ∈ actions.map (fun x => x.action_id) then
            dictSet g2 a.action_id
              (ExecCoord.setAdd ((dictGet g2 a.action_id).getD []) dep_id)
          else g2) g) a.action_id).isSome := by
  intro deps
  induction deps with
  | nil =>
    intro g hdep
    obtain ⟨d, hd, _⟩ := hdep
    cases hd
  | cons d0 rest ih =>
    intro g hdep
    simp only [List.foldl_cons]
    obtain ⟨d, hd, hdid⟩ := hdep
    rcases List.mem_cons.mp hd with hd0 | hd2
    · subst hd0
      apply build_inner_preserves_isSome
      rw [if_pos hdid]
      exact (dictGet_dictSet_isSome _ _ _ _).mpr (Or.inl rfl)
    · exact ih _ ⟨d, hd2, hdid⟩

/-- An action holding a dependency that names an action of the batch has an
entry in the built dependency graph. -/
theorem build_graph_key_present (actions : List ExecCoord.ConcreteAction)
    (a : ExecCoord.ConcreteAction) (ha : a ∈ actions)
    (hdep : ∃ d ∈ a.dependencies, d ∈ actions.map (fun x => x.action_id)) :
    (dictGet (ExecCoord.build_dependency_graph actions) a.action_id).isSome := by
  simp only [ExecCoord.build_dependency_graph]
  suffices hgen : ∀ (acts : List ExecCoord.ConcreteAction)
      (g : List (String × List String)),
      a ∈ acts →
      (dictGet (acts.foldl
        (fun graph x =>
          x.dependencies.foldl
            (fun g2 dep_id =>
              if dep_id ∈ actions.map (fun y => y.action_id) then
                dictSet g2 x.action_id
                  (ExecCoord.setAdd ((dictGet g2 x.action_id).getD []) dep_id)
              else g2) graph) g) a.action_id).isSome by
    exact hgen actions [] ha
  intro acts
  induction acts with
  | nil =>
    intro g hmem
    cases hmem
  | cons a0 rest ih =>
    intro g hmem
    simp only [List.foldl_cons]
    rcases List.mem_cons.mp hmem with heq | hmem2
    · subst heq
      apply build_outer_preserves_isSome
      exact build_inner_creates actions a a.dependencies g hdep
    · exact ih _ hmem2

/-- Key presence in the in-degree initialisation fold. -/
theorem init_fold_isSome (g : List (String × Int)) :
    ∀ (acts : List ExecCoord.ConcreteAction) (k : String),
      (dictGet (acts.foldl (fun d a => dictSet d a.action_id 0) g) k).isSome
        ↔ k ∈ acts.map (fun a => a.action_id) ∨ (dictGet g k).isSome := by
  intro acts
  induction acts generalizing g with
  | nil => intro k; simp
  | cons a0 rest ih =>
    intro k
    simp only [List.foldl_cons, List.map_cons, List.mem_cons]
    rw [ih (dictSet g a0.action_id 0) k]
    rw [dictGet_dictSet_isSome]
    tauto

/-- The in-degree dict starts with a key for exactly every action id. -/
theorem init_in_degree_isSome (actions : List ExecCoord.ConcreteAction) (k : String) :
    (dictGet (ExecCoord.init_in_degree actions) k).isSome
      ↔ k ∈ actions.map (fun a => a.action_id) := by
  rw [ExecCoord.init_in_degree, init_fold_isSome]
  simp [dictGet]

/-- The in-degree dict starts at zero everywhere. -/
theorem init_in_degree_values (actions : List ExecCoord.ConcreteAction) (k : String) :
    dictGet (ExecCoord.init_in_degree actions) k = none
      ∨ dictGet (ExecCoord.init_in_degree actions) k = some 0 := by
  rw [ExecCoord.init_in_degree]
  refine foldl_preserve
    (fun d => dictGet d k = none ∨ dictGet d k = some 0) _ actions [] (Or.inl rfl) ?_
  intro d a _ hd
  by_cases hk : k = a.action_id
  · subst hk
    rw [dictGet_dictSet_self]
    exact Or.inr rfl
  · rw [dictGet_dictSet_ne _ _ _ _ hk]
    exact hd

/-- One in-degree bump step never decreases any count. -/
theorem inc_step_mono (aid : String) (d : List (String × Int)) (dep : String) (k : String) :
    (dictGet d k).getD 0
      ≤ (dictGet (if (dictGet d dep).isSome then
          dictSet d aid (((dictGet d aid).getD 0) + 1) else d) k).getD 0 := by
  by_cases hguard : (dictGet d dep).isSome
  · rw [if_pos hguard]
    by_cases hk : k = aid
    · subst hk
      rw [dictGet_dictSet_self]
      simp
    · rw [dictGet_dictSet_ne _ _ _ _ hk]
  · rw [if_neg hguard]

/-- The in-degree bump fold never decreases any count. -/
theorem inc_fold_mono (aid : String) (deps : List String) (k : String) :
    ∀ (d : List (String × Int)),
      (dictGet d k).getD 0
        ≤ (dictGet (deps.foldl
            (fun d2 dep_id =>
              if (dictGet d2 dep_id).isSome then
                dictSet d2 aid (((dictGet d2 aid).getD 0) + 1)
              else d2) d) k).getD 0 := by
  induction deps with
  | nil => intro d; exact le_refl _
  | cons dep rest ih =>
    intro d
    simp only [List.foldl_cons]
    exact le_trans (inc_step_mono aid d dep k) (ih _)

/-- The in-degree bump fold preserves the key set (the bumped key already
being tracked). -/
theorem inc_fold_keys (aid : String) (ids : List String) (haid : aid ∈ ids)
    (deps : List String) (d : List (String × Int))
    (hd : ∀ k, (dictGet d k).isSome ↔ k ∈ ids) :
    ∀ k, (dictGet (deps.foldl
        (fun d2 dep_id =>
          if (dictGet d2 dep_id).isSome then
            dictSet d2 aid (((dictGet d2 aid).getD 0) + 1)
          else d2) d) k).isSome ↔ k ∈ ids := by
  refine foldl_preserve
    (fun d2 => ∀ k, (dictGet d2 k).isSome ↔ k ∈ ids) _ deps d hd ?_
  intro d2 dep _ hd2
  intro k
  by_cases hguard : (dictGet d2 dep).isSome
  · rw [if_pos hguard, dictGet_dictSet_isSome]
    constructor
    · intro h
      rcases h with h | h
      · rw [h]; exact haid
      · exact (hd2 k).mp h
    · intro h
      by_cases hk : k = aid
      · exact Or.inl hk
      · exact Or.inr ((hd2 k).mpr h)
  · rw [if_neg hguard]
    exact hd2 k

/-- A nonempty dependency entry whose members are tracked ids bumps the
owner's in-degree by at least one. -/
theorem inc_fold_bump (aid : String) (ids : List String)
    (deps : List String) (hne : deps ≠ []) (hsub : ∀ x ∈ deps, x ∈ ids)
    (d : List (String × Int)) (hd : ∀ k, (dictGet d k).isSome ↔ k ∈ ids) :
    (dictGet d aid).getD 0 + 1
      ≤ (dictGet (deps.foldl
          (fun d2 dep_id =>
            if (dictGet d2 dep_id).isSome then
              dictSet d2 aid (((dictGet d2 aid).getD 0) + 1)
            else d2) d) aid).getD 0 := by
  cases deps with
  | nil => exact absurd rfl hne
  | cons d0 rest =>
    simp only [List.foldl_cons]
    have hguard : (dictGet d d0).isSome := (hd d0).mpr (hsub d0 (List.mem_cons_self d0 rest))
    rw [if_pos hguard]
    have hset : (dictGet (dictSet d aid (((dictGet d aid).getD 0) + 1)) aid).getD 0
        = (dictGet d aid).getD 0 + 1 := by
      rw [dictGet_dictSet_self]
      simp
    calc (dictGet d aid).getD 0 + 1
        = (dictGet (dictSet d aid (((dictGet d aid).getD 0) + 1)) aid).getD 0 := hset.symm
      _ ≤ _ := inc_fold_mono aid rest aid _

/-- The full in-degree computation never decreases any count. -/
theorem compute_outer_mono (graph : List (String × List String)) (k : String) :
    ∀ (acts : List ExecCoord.ConcreteAction) (d : List (String × Int)),
      (dictGet d k).getD 0
        ≤ (dictGet (acts.foldl
            (fun d2 a =>
              ((dictGet graph a.action_id).getD []).foldl
                (fun d3 dep_id =>
                  if (dictGet d3 dep_id).isSome then
                    dictSet d3 a.action_id (((dictGet d3 a.action_id).getD 0) + 1)
                  else d3) d2) d) k).getD 0 := by
  intro acts
  induction acts with
  | nil => intro d; exact le_refl _
  | cons a0 rest ih =>
    intro d
    simp only [List.foldl_cons]
    exact le_trans (inc_fold_mono a0.action_id _ k d) (ih _)

/-- Any batch action with a nonempty tracked dependency entry ends the
in-degree computation with a strictly positive count. -/
theorem compute_fold_pos (graph : List (String × List String)) (ids : List String)
    (a : ExecCoord.ConcreteAction) (l : List String)
    (hentry : dictGet graph a.action_id = some l) (hlne : l ≠ [])
    (hlsub : ∀ e ∈ l, e ∈ ids) :
    ∀ (acts : List ExecCoord.ConcreteAction) (d : List (String × Int)),
      (∀ k, (dictGet d k).isSome ↔ k ∈ ids) →
      (∀ k, 0 ≤ (dictGet d k).getD 0) →
      (∀ x ∈ acts, x.action_id ∈ ids) →
      a ∈ acts →
      1 ≤ (dictGet (acts.foldl
          (fun d2 x =>
            ((dictGet graph x.action_id).getD []).foldl
              (fun d3 dep_id =>
                if (dictGet d3 dep_id).isSome then
                  dictSet d3 x.action_id (((dictGet d3 x.action_id).getD 0) + 1)
                else d3) d2) d) a.action_id).getD 0 := by
  intro acts
  induction acts with
  | nil =>
    intro d _ _ _ hmem
    cases hmem
  | cons a0 rest ih =>
    intro d hkeys hnn hids hmem
    simp only [List.foldl_cons]
    have hkeys1 : ∀ k, (dictGet (((dictGet graph a0.action_id).getD []).foldl
        (fun d3 dep_id =>
          if (dictGet d3 dep_id).isSome then
            dictSet d3 a0.action_id (((dictGet d3 a0.action_id).getD 0) + 1)
          else d3) d) k).isSome ↔ k ∈ ids :=
      inc_fold_keys a0.action_id ids (hids a0 (List.mem_cons_self a0 rest)) _ d hkeys
    have hnn1 : ∀ k, 0 ≤ (dictGet (((dictGet graph a0.action_id).getD []).foldl
        (fun d3 dep_id =>
          if (dictGet d3 dep_id).isSome then
            dictSet d3 a0.action_id (((dictGet d3 a0.action_id).getD 0) + 1)
          else d3) d) k).getD 0 :=
      fun k => le_trans (hnn k) (inc_fold_mono a0.action_id _ k d)
    rcases List.mem_cons.mp hmem with heq | hmem2
    · subst heq
      have hbump := inc_fold_bump a.action_id ids
        ((dictGet graph a.action_id).getD [])
        (by rw [hentry]; simpa using hlne)
        (by rw [hentry]; simpa using hlsub) d hkeys
      have h1 : 1 ≤ (dictGet (((dictGet graph a.action_id).getD []).foldl
          (fun d3 dep_id =>
            if (dictGet d3 dep_id).isSome then
              dictSet d3 a.action_id (((dictGet d3 a.action_id).getD 0) + 1)
            else d3) d) a.action_id).getD 0 := by
        have := hnn a.action_id
        linarith
      exact le_trans h1 (compute_outer_mono graph a.action_id rest _)
    · exact ih _ hkeys1 hnn1
        (fun x hx => hids x (List.mem_cons_of_mem a0 hx)) hmem2

/-- Keys written by dictSet are the written key or existing keys. -/
theorem keys_dictSet_subset {α : Type} (l : List (String × α)) (k : String) (v : α) :
    ∀ x ∈ (dictSet l k v).map Prod.fst, x = k ∨ x ∈ l.map Prod.fst := by
  induction l with
  | nil =>
    intro x hx
    simp [dictSet] at hx
    exact Or.inl hx
  | cons kv rest ih =>
    intro x hx
    simp only [dictSet] at hx
    by_cases hk : kv.1 = k
    · rw [if_pos hk] at hx
      simp only [List.map_cons, List.mem_cons] at hx
      rcases hx with h1 | h1
      · exact Or.inl h1
      · exact Or.inr (List.mem_cons_of_mem _ h1)
    · rw [if_neg hk] at hx
      simp only [List.map_cons, List.mem_cons] at hx
      rcases hx with h1 | h1
      · exact Or.inr (by simp [h1])
      · rcases ih x h1 with h2 | h2
        · exact Or.inl h2
        · exact Or.inr (List.mem_cons_of_mem _ h2)

/-- dictSet preserves distinctness of keys. -/
theorem nodup_keys_dictSet {α : Type} (l : List (String × α)) (k : String) (v : α)
    (h : (l.map Prod.fst).Nodup) : ((dictSet l k v).map Prod.fst).Nodup := by
  induction l with
  | nil => simp [dictSet]
  | cons kv rest ih =>
    simp only [List.map_cons, List.nodup_cons] at h
    simp only [dictSet]
    by_cases hk : kv.1 = k
    · rw [if_pos hk]
      simp only [List.map_cons, List.nodup_cons]
      rw [← hk]
      exact h
    · rw [if_neg hk]
      simp only [List.map_cons, List.nodup_cons]
      constructor
      · intro hmem
        rcases keys_dictSet_subset rest k v kv.1 hmem with h1 | h1
        · exact hk h1
        · exact h.1 h1
      · exact ih h.2

/-- Looking up the key of a member of a key-distinct association list finds
that member's value. -/
theorem dictGet_of_mem_nodup {α : Type} :
    ∀ (l : List (String × α)) (kv : String × α),
      kv ∈ l → (l.map Prod.fst).Nodup → dictGet l kv.1 = some kv.2 := by
  intro l
  induction l with
  | nil =>
    intro kv hmem _
    cases hmem
  | cons hd rest ih =>
    intro kv hmem hnd
    simp only [List.map_cons, List.nodup_cons] at hnd
    rcases List.mem_cons.mp hmem with heq | hmem2
    · subst heq
      simp [dictGet]
    · simp only [dictGet]
      by_cases hk : hd.1 = kv.1
      · exfalso
        apply hnd.1
        rw [hk]
        exact List.mem_map.mpr ⟨kv, hmem2, rfl⟩
      · rw [if_neg hk]
        exact ih kv hmem2 hnd.2

/-- The computed in-degree dict has distinct keys. -/
theorem compute_in_degree_nodup_keys (actions : List ExecCoord.ConcreteAction)
    (graph : List (String × List String)) :
    ((ExecCoord.compute_in_degree actions graph).map Prod.fst).Nodup := by
  rw [ExecCoord.compute_in_degree]
  have hinit : ((ExecCoord.init_in_degree actions).map Prod.fst).Nodup := by
    rw [ExecCoord.init_in_degree]
    refine foldl_preserve
      (fun d : List (String × Int) => (d.map Prod.fst).Nodup) _ actions [] ?_ ?_
    · simp
    · intro d a _ hd
      exact nodup_keys_dictSet d a.action_id 0 hd
  refine foldl_preserve
    (fun d : List (String × Int) => (d.map Prod.fst).Nodup) _ actions _ hinit ?_
  intro d a _ hd
  refine foldl_preserve
    (fun d2 : List (String × Int) => (d2.map Prod.fst).Nodup) _ _ d hd ?_
  intro d2 dep _ hd2
  by_cases hguard : (dictGet d2 dep).isSome
  · rw [if_pos hguard]
    exact nodup_keys_dictSet _ _ _ hd2
  · rw [if_neg hguard]
    exact hd2

/-- The computed in-degree dict tracks exactly the action ids. -/
theorem compute_in_degree_keys (actions : List ExecCoord.ConcreteAction)
    (graph : List (String × List String)) :
    ∀ k, (dictGet (ExecCoord.compute_in_degree actions graph) k).isSome
      ↔ k ∈ actions.map (fun a => a.action_id) := by
  rw [ExecCoord.compute_in_degree]
  refine foldl_preserve
    (fun d : List (String × Int) =>
      ∀ k, (dictGet d k).isSome ↔ k ∈ actions.map (fun a => a.action_id))
    _ actions _ ?_ ?_
  · exact init_in_degree_isSome actions
  · intro d a ha hd
    exact inc_fold_keys a.action_id _ (List.mem_map.mpr ⟨a, ha, rfl⟩) _ d hd

/-- An action with a dependency naming a batch action ends the in-degree
computation with a strictly positive count. -/
theorem compute_in_degree_pos (actions : List ExecCoord.ConcreteAction)
    (a : ExecCoord.ConcreteAction) (ha : a ∈ actions)
    (hdep : ∃ d ∈ a.dependencies, d ∈ actions.map (fun x => x.action_id)) :
    1 ≤ (dictGet (ExecCoord.compute_in_degree actions
        (ExecCoord.build_dependency_graph actions)) a.action_id).getD 0 := by
  have hsome := build_graph_key_present actions a ha hdep
  obtain ⟨l, hentry⟩ := Option.isSome_iff_exists.mp hsome
  have hfacts := build_graph_entries actions a.action_id l hentry
  rw [ExecCoord.compute_in_degree]
  refine compute_fold_pos _ _ a l hentry hfacts.1 hfacts.2 actions _
    (init_in_degree_isSome actions) ?_ (fun x hx => List.mem_map.mpr ⟨x, hx, rfl⟩) ha
  intro k
  rcases init_in_degree_values actions k with h | h <;> simp [h]

/-- C2 (amended): the claim "a cyclic input makes Plan fail with a
CyclicDependency error" fails on the code, which has no error path at all.
What holds instead: for every input action set in which each action has at
least one dependency naming an action of the batch (so the dependency graph
has no zero-in-degree node and is necessarily cyclic),
create_execution_plan returns normally with an ExecutionPlan containing no
levels — zero actions are dispatched, and the cyclic actions are silently
dropped rather than reported. -/
theorem c2_cyclic_input_returns_empty_plan (actions : List ExecCoord.ConcreteAction)
    (h : ∀ a ∈ actions, ∃ d ∈ a.dependencies, d ∈ actions.map (fun x => x.action_id)) :
    ExecCoord.create_execution_plan actions
      = { sequential_actions := [], total_actions := actions.length,
          estimated_time := 0 } := by
  have hfilter : (ExecCoord.compute_in_degree actions
      (ExecCoord.build_dependency_graph actions)).filter (fun kv => kv.2 = 0) = [] := by
    rw [List.filter_eq_nil]
    intro kv hkv
    have hget := dictGet_of_mem_nodup _ kv hkv
      (compute_in_degree_nodup_keys actions (ExecCoord.build_dependency_graph actions))
    have hks : kv.1 ∈ actions.map (fun a => a.action_id) :=
      (compute_in_degree_keys actions (ExecCoord.build_dependency_graph actions) kv.1).mp
        (by rw [hget]; rfl)
    obtain ⟨a, ha, haid⟩ := List.mem_map.mp hks
    have hpos := compute_in_degree_pos actions a ha (h a ha)
    rw [haid, hget] at hpos
    simp only [Option.getD_some] at hpos
    simp only [decide_eq_true_eq]
    omega
  have hgroups : ExecCoord.topological_sort actions
      (ExecCoord.build_dependency_graph actions) = [] := by
    simp only [ExecCoord.topological_sort]
    rw [hfilter]
    simp [ExecCoord.sort_loop]
  simp [ExecCoord.create_execution_plan, hgroups]

/-- C2 witness: the amended statement at the three-action cycle X-Y-Z. -/
theorem c2_cyclic_input_returns_empty_plan_witness :
    ExecCoord.create_execution_plan ExecCoord.cyc3
      = { sequential_actions := [], total_actions := ExecCoord.cyc3.length,
          estimated_time := 0 } :=
  c2_cyclic_input_returns_empty_plan ExecCoord.cyc3 (by decide)
